import Mathlib

/-
Verification of the LearnSphere persistence + response-normalization core.

The TypeScript source is shallowly embedded:
  * JS strings are Lean `String`; character-level operations of
    `cleanJsonResponse` run on `List Char`.
  * JS numbers appearing in the data model are `Int` (all relevant values are
    integral; the single fractional spot, `Math.round(100 / questionsPerExam)`,
    is modeled by exact integer rounding).
  * `Date` values are millisecond timestamps (`Int`); `toISOString` and the
    reading `new Date(iso)` are mutually inverse, so the stored `createdAt`
    is modeled by the timestamp itself.
  * `async` functions that can throw become `Except String`, the error being
    the JS `Error` message.
  * JSON values are the inductive `Json`; `JSON.stringify` of a questions
    array is modeled by the AST encoding `encodeQuestions` and `JSON.parse`
    of stored data by `decodeQuestions` (string-level printing of the store
    payload is abstracted to the AST, which `stringify`/`parse` of the JS
    runtime preserve).
  * The platform `JSON.parse` applied to model responses is an explicit
    parameter `parseJson : String → Option Json` of the orchestrators, as it
    is a runtime capability, not repository code.
-/

/-! ## JSON values -/

/-- A JSON value.  Numbers are integers: every numeric literal the modeled
code produces or consumes is integral. -/
inductive Json where
  | null : Json
  | bool (b : Bool) : Json
  | num (n : Int) : Json
  | str (s : String) : Json
  | arr (xs : List Json) : Json
  | obj (fields : List (String × Json)) : Json
deriving Repr

/-- Field lookup in a JSON object, i.e. JS property access `o[k]`;
`none` models `undefined`. -/
def jsonLookup (fields : List (String × Json)) (k : String) : Option Json :=
  (fields.find? (fun f => f.1 = k)).map (fun f => f.2)

/-- JS truthiness of a JSON value. -/
def jsTruthy : Json → Bool
  | .null => false
  | .bool b => b
  | .num n => n != 0
  | .str s => s != ""
  | .arr _ => true
  | .obj _ => true

/-! ## JS string primitives (on `List Char`) -/

/-- The whitespace characters relevant to `String.prototype.trim`. -/
def isJsWhitespace (c : Char) : Bool :=
  c = ' ' || c = '\t' || c = '\n' || c = '\r' || c = '\x0b' || c = '\x0c'

def jsTrimLeft (s : List Char) : List Char := s.dropWhile isJsWhitespace

def jsTrimRight (s : List Char) : List Char :=
  (s.reverse.dropWhile isJsWhitespace).reverse

/-- `String.prototype.trim`. -/
def jsTrim (s : List Char) : List Char := jsTrimRight (jsTrimLeft s)

/-- `String.prototype.startsWith`. -/
def jsStartsWith (s pre : List Char) : Bool := s.take pre.length = pre

/-- `String.prototype.endsWith`. -/
def jsEndsWith (s suf : List Char) : Bool :=
  suf.length ≤ s.length && s.drop (s.length - suf.length) = suf

/-- Helper for `jsIndexOf`: first index of `c`, or `-1`. -/
def jsIndexOfAux (c : Char) : List Char → Int
  | [] => -1
  | x :: xs =>
    if x = c then 0
    else
      let r := jsIndexOfAux c xs
      if r = -1 then -1 else r + 1

/-- `String.prototype.indexOf` for a single character (result `-1` if absent). -/
def jsIndexOf (s : List Char) (c : Char) : Int := jsIndexOfAux c s

/-- `String.prototype.lastIndexOf` for a single character. -/
def jsLastIndexOf (s : List Char) (c : Char) : Int :=
  let r := jsIndexOfAux c s.reverse
  if r = -1 then -1 else (s.length : Int) - 1 - r

/-- `String.prototype.substring(a, b)`: clamps both arguments to
`[0, length]` and swaps them when reversed. -/
def jsSubstring (s : List Char) (a b : Int) : List Char :=
  let len : Int := s.length
  let a' := min (max a 0) len
  let b' := min (max b 0) len
  let lo := min a' b'
  let hi := max a' b'
  (s.drop lo.toNat).take (hi - lo).toNat

/-- `String.prototype.substring(a)` (one-argument form). -/
def jsSubstringFrom (s : List Char) (a : Int) : List Char :=
  jsSubstring s a s.length

/-! ## ResponseNormalizer: `cleanJsonResponse`

`ExamSimulatorService.cleanJsonResponse` and
`LearningRoadService.cleanJsonResponse` are verbatim identical; they are
embedded once. -/

/-- The characters of the fence opener tagged json. -/
def fenceJsonChars : List Char := ['\x60', '\x60', '\x60', 'j', 's', 'o', 'n']

/-- The characters of a bare triple-backtick fence. -/
def fenceChars : List Char := ['\x60', '\x60', '\x60']

def openBraceChar : Char := '\x7b'
def closeBraceChar : Char := '\x7d'

/-- First half of `cleanJsonResponse`: trim, strip a leading (tagged or
bare) fence and a trailing fence, then re-trim. -/
def stripFences (text : List Char) : List Char :=
  let cleaned0 := jsTrim text
  let cleaned1 :=
    if jsStartsWith cleaned0 fenceJsonChars then jsSubstringFrom cleaned0 7
    else if jsStartsWith cleaned0 fenceChars then jsSubstringFrom cleaned0 3
    else cleaned0
  let cleaned2 :=
    if jsEndsWith cleaned1 fenceChars then
      jsSubstring cleaned1 0 ((cleaned1.length : Int) - 3)
    else cleaned1
  jsTrim cleaned2

/-- Second half of `cleanJsonResponse`: slice from the first opening
brace/bracket to the last matching closer, then trim. -/
def sliceJsonPayload (cleaned : List Char) : List Char :=
  let openBrace := jsIndexOf cleaned openBraceChar
  let openBracket := jsIndexOf cleaned '['
  let closeBrace := jsLastIndexOf cleaned closeBraceChar
  let closeBracket := jsLastIndexOf cleaned ']'
  let se : Int × Int :=
    if openBrace ≠ -1 ∧ (openBracket = -1 ∨ openBrace < openBracket) then
      (openBrace, closeBrace)
    else if openBracket ≠ -1 then
      (openBracket, closeBracket)
    else (-1, -1)
  let cleaned3 :=
    if se.1 ≠ -1 ∧ se.2 ≠ -1 ∧ se.2 > se.1 then
      jsSubstring cleaned se.1 (se.2 + 1)
    else cleaned
  jsTrim cleaned3

/-- `cleanJsonResponse(text)` (one function in the source, embedded as the
composition of its two phases). -/
def cleanJsonResponse (text : List Char) : List Char :=
  sliceJsonPayload (stripFences text)

/-- `cleanJsonResponse` on a Lean `String`. -/
def cleanJsonResponseS (text : String) : String :=
  (cleanJsonResponse text.data).asString

/-! ## Exam-simulator data model (`examSimulatorService.ts`)

TypeScript string-literal unions (`type`, `difficulty`) are compile-time
annotations only — the runtime never validates them — so they are embedded
as `String`.  `correctAnswer?: string | number` becomes an optional sum. -/

/-- `string | number` (the type of `correctAnswer`). -/
inductive StrOrNum where
  | str (s : String) : StrOrNum
  | num (n : Int) : StrOrNum
deriving DecidableEq, Repr

/-- interface `SimulatorQuestion`. -/
structure SimulatorQuestion where
  id : String
  question : String
  type : String
  options : Option (List String)
  correctAnswer : Option StrOrNum
  points : Int
  explanation : Option String
  difficulty : String
deriving DecidableEq, Repr

/-- interface `SimulatorExam`.  The interface declares `estimatedTime` and
`score` as required numbers, but the constructing code omits `score`
everywhere and sets `estimatedTime` to the possibly-undefined
`settings.timePerExam` on the fallback path, so both are optional here. -/
structure SimulatorExam where
  id : String
  title : String
  description : String
  instructions : String
  questions : List SimulatorQuestion
  totalPoints : Int
  estimatedTime : Option Int
  difficultyLevel : Int
  difficultyLabel : String
  createdAt : Int
  score : Option Int
deriving DecidableEq, Repr

/-- interface `ExamSeries`. -/
structure ExamSeries where
  id : String
  topic : String
  description : String
  exams : List SimulatorExam
  totalExams : Int
  createdAt : Int
deriving DecidableEq, Repr

/-- interface `SimulatorSettings`. -/
structure SimulatorSettings where
  numberOfExams : Nat
  questionsPerExam : Option Int
  timePerExam : Option Int
deriving DecidableEq, Repr

/-! ## Difficulty configuration -/

/-- One entry of the fixed difficulty table in `getDifficultyConfig`. -/
structure DifficultyConfig where
  label : String
  description : String
  complexity : String
  cognitiveLevel : String
deriving DecidableEq, Repr

def difficultyConfig1 : DifficultyConfig :=
  { label := "Foundation"
    description := "Basic understanding - covers fundamental concepts"
    complexity := "Focus on recall and basic understanding. Questions should test foundational knowledge and basic concepts."
    cognitiveLevel := "Remember and Understand" }

def difficultyConfig2 : DifficultyConfig :=
  { label := "Beginner"
    description := "Slightly more challenging - requires basic application"
    complexity := "Increase complexity by 15-20%. Include basic application questions and simple problem-solving."
    cognitiveLevel := "Understand and Apply" }

def difficultyConfig3 : DifficultyConfig :=
  { label := "Intermediate"
    description := "Moderate difficulty - requires deeper understanding"
    complexity := "Increase complexity by 35-40%. Require deeper understanding, analysis, and multi-step reasoning."
    cognitiveLevel := "Apply and Analyze" }

def difficultyConfig4 : DifficultyConfig :=
  { label := "Advanced"
    description := "Challenging - requires critical thinking"
    complexity := "Increase complexity by 55-60%. Include critical thinking, synthesis of concepts, and complex problem-solving."
    cognitiveLevel := "Analyze and Evaluate" }

def difficultyConfig5 : DifficultyConfig :=
  { label := "Expert"
    description := "Very challenging - requires mastery"
    complexity := "Increase complexity by 75-80%. Require mastery-level understanding, creative application, and expert-level reasoning."
    cognitiveLevel := "Evaluate and Create" }

def difficultyConfig6 : DifficultyConfig :=
  { label := "Master"
    description := "Extremely challenging - professional level"
    complexity := "Increase complexity by 90-95%. Professional-level questions requiring deep expertise and innovative thinking."
    cognitiveLevel := "Create and Innovate" }

def difficultyConfig7 : DifficultyConfig :=
  { label := "Genius"
    description := "Ultimate challenge - if you ace this, you\x27re an expert"
    complexity := "Maximum complexity (100%+). If someone scores 80%+ here, they should be able to ace any standard exam on this topic."
    cognitiveLevel := "Master and Innovate" }

/-- `getDifficultyConfig(level)`: the table holds keys 1..7 and the source
falls back with `configs[level] || configs[1]` for any other key. -/
def getDifficultyConfig (level : Int) : DifficultyConfig :=
  if level = 1 then difficultyConfig1
  else if level = 2 then difficultyConfig2
  else if level = 3 then difficultyConfig3
  else if level = 4 then difficultyConfig4
  else if level = 5 then difficultyConfig5
  else if level = 6 then difficultyConfig6
  else if level = 7 then difficultyConfig7
  else difficultyConfig1

/-- The fixed 7-entry difficulty-label vocabulary. -/
def difficultyLabelVocab : List String :=
  ["Foundation", "Beginner", "Intermediate", "Advanced", "Expert", "Master", "Genius"]

/-! ## Coercion of parsed JSON into a typed exam

JS property access on a parsed value never throws except on
`null`/`undefined`; the one throwing spot is `examData.questions.map` when
`questions` is not an array.  `none` below covers the throwing cases
(non-object `examData`, missing/non-array `questions`, `null` question
entries) together with the untyped regions the typed record cannot carry
(a truthy non-string in a string field, a points value that would be `NaN`);
no claim exercises those regions. -/

/-- `x || d` for an optional string-valued JSON field with string default. -/
def jsOrStr (v : Option Json) (d : String) : Option String :=
  match v with
  | none => some d
  | some j =>
    if jsTruthy j then
      match j with
      | .str s => some s
      | _ => none
    else some d

/-- `x || d` for an optional number-valued JSON field with number default. -/
def jsOrNum (v : Option Json) (d : Int) : Option Int :=
  match v with
  | none => some d
  | some j =>
    if jsTruthy j then
      match j with
      | .num n => some n
      | _ => none
    else some d

/-- `Math.round(100 / k)` for positive integral `k` (floating-point division
followed by round-half-up, computed exactly). -/
def jsRoundDiv100 (k : Int) : Int := Int.fdiv (200 + k) (2 * k)

/-- The per-question default points `Math.round(100 / settings.questionsPerExam)`;
`none` when `questionsPerExam` is undefined (the JS value would be `NaN`). -/
def defaultQuestionPoints (settings : SimulatorSettings) : Option Int :=
  settings.questionsPerExam.map jsRoundDiv100

def asJsonStr : Json → Option String
  | .str s => some s
  | _ => none

/-- `Option`-valued traversal of a list (the element-wise decode used for
arrays). -/
def optionMapM {α β : Type} (f : α → Option β) : List α → Option (List β)
  | [] => some []
  | x :: xs => do
    let y ← f x
    let ys ← optionMapM f xs
    pure (y :: ys)

/-- `{...q, id: q.id || default, points: q.points || default}` for one entry
of `examData.questions`. -/
def coerceQuestion (settings : SimulatorSettings) (level : Nat) (index : Nat)
    (q : Json) : Option SimulatorQuestion :=
  match q with
  | .obj fs => do
    let id ← jsOrStr (jsonLookup fs "id")
      ("q" ++ toString level ++ "_" ++ toString (index + 1))
    let points ←
      match jsonLookup fs "points" with
      | some (.num n) => if n ≠ 0 then some n else defaultQuestionPoints settings
      | some j => if jsTruthy j then none else defaultQuestionPoints settings
      | none => defaultQuestionPoints settings
    let question ← jsonLookup fs "question" >>= asJsonStr
    let type ← jsonLookup fs "type" >>= asJsonStr
    let options ←
      match jsonLookup fs "options" with
      | none => some none
      | some (.arr xs) => (optionMapM asJsonStr xs).map some
      | some _ => none
    let correctAnswer ←
      match jsonLookup fs "correctAnswer" with
      | none => some none
      | some (.str s) => some (some (StrOrNum.str s))
      | some (.num n) => some (some (StrOrNum.num n))
      | some _ => none
    let explanation ←
      match jsonLookup fs "explanation" with
      | none => some none
      | some (.str s) => some (some s)
      | some _ => none
    let difficulty ← jsonLookup fs "difficulty" >>= asJsonStr
    pure { id := id, question := question, type := type, options := options,
           correctAnswer := correctAnswer, points := points,
           explanation := explanation, difficulty := difficulty }
  | _ => none

/-- `examData.questions.map((q, index) => ...)`. -/
def coerceQuestions (settings : SimulatorSettings) (level : Nat) :
    Nat → List Json → Option (List SimulatorQuestion)
  | _, [] => some []
  | index, q :: rest => do
    let q' ← coerceQuestion settings level index q
    let rest' ← coerceQuestions settings level (index + 1) rest
    pure (q' :: rest')

/-- Construction of the parsed-path `SimulatorExam` from `examData`
(`generateExamSeries`, success branch of the inner try). -/
def coerceExam (seriesTopic : String) (settings : SimulatorSettings)
    (examTime now : Int) (level : Nat) (examData : Json) :
    Option SimulatorExam :=
  let dc := getDifficultyConfig (level : Int)
  match examData with
  | .obj fs => do
    let questions ←
      match jsonLookup fs "questions" with
      | some (.arr qs) => coerceQuestions settings level 0 qs
      | _ => none
    let title ← jsOrStr (jsonLookup fs "title")
      ("Level " ++ toString level ++ ": " ++ dc.label ++ " - " ++ seriesTopic)
    let description ← jsOrStr (jsonLookup fs "description") dc.description
    let instructions ← jsOrStr (jsonLookup fs "instructions")
      ("This is a Level " ++ toString level ++ " exam. " ++ dc.description)
    let totalPoints ← jsOrNum (jsonLookup fs "totalPoints") 100
    pure { id := "exam_" ++ toString now ++ "_" ++ toString level,
           title := title, description := description,
           instructions := instructions, questions := questions,
           totalPoints := totalPoints, estimatedTime := some examTime,
           difficultyLevel := (level : Int), difficultyLabel := dc.label,
           createdAt := now, score := none }
  | _ => none

/-- The deterministic fallback exam built when parsing a level response
fails (`generateExamSeries`, catch branch of the inner try). -/
def fallbackExam (seriesTopic : String) (settings : SimulatorSettings)
    (now : Int) (level : Nat) : SimulatorExam :=
  let dc := getDifficultyConfig (level : Int)
  { id := "fallback_exam_" ++ toString now ++ "_" ++ toString level,
    title := "Level " ++ toString level ++ ": " ++ dc.label ++ " - " ++ seriesTopic,
    description := dc.description,
    instructions := "This is a Level " ++ toString level ++ " practice exam.",
    questions := [{ id := "fallback_q" ++ toString level ++ "_1",
                    question := "Sample Level " ++ toString level ++ " question for " ++ seriesTopic,
                    type := "multiple-choice",
                    options := some ["Option A", "Option B", "Option C", "Option D"],
                    correctAnswer := some (StrOrNum.num 0),
                    points := 100,
                    explanation := some "This is a fallback question due to parsing error.",
                    difficulty := "Medium" }],
    totalPoints := 100,
    estimatedTime := settings.timePerExam,
    difficultyLevel := (level : Int),
    difficultyLabel := dc.label,
    createdAt := now,
    score := none }

/-! ## PromptBuilder

The prompt copy text itself is out of scope (spec section 1); the embedding
keeps the builder a pure function of the same inputs, interpolating the
level, the exam count, the description and the difficulty configuration as
the source template does, with the surrounding fixed prose condensed. -/

/-- `createExamSeriesPrompt(description, settings, hasUploadedFiles, examLevel)`. -/
def createExamSeriesPrompt (description : String) (settings : SimulatorSettings)
    (hasUploadedFiles : Bool) (examLevel : Int) : String :=
  let dc := getDifficultyConfig examLevel
  "You are an expert exam creator and educational assessment specialist. "
    ++ (if hasUploadedFiles then
          "CAREFULLY ANALYZE the uploaded exam/study materials first. " else "")
    ++ "Create a comprehensive practice exam for LEVEL " ++ toString examLevel
    ++ " of " ++ toString settings.numberOfExams
    ++ " total exams with PROGRESSIVE DIFFICULTY. EXAM DESCRIPTION: "
    ++ description
    ++ " DIFFICULTY LEVEL " ++ toString examLevel ++ ": " ++ dc.label
    ++ " COMPLEXITY INSTRUCTION: " ++ dc.complexity
    ++ " COGNITIVE LEVEL: " ++ dc.cognitiveLevel
    ++ " DESCRIPTION: " ++ dc.description
    ++ " FORMAT YOUR RESPONSE AS JSON. Return ONLY valid JSON, no additional text or markdown."

/-! ## GenerationOrchestrator: `generateExamSeries` -/

/-- An uploaded `File` together with the outcome of reading it: `fileToBase64`
resolves with the base64 payload or rejects (modeled by `Except`). -/
structure JsFile where
  name : String
  base64 : Except String String
deriving Repr

/-- The `InputError` message thrown when no content source is supplied. -/
def inputErrorMsg : String :=
  "Please provide either an exam description or upload reference materials."

/-- The error thrown when reading an uploaded file fails. -/
def fileErrorMsg (name : String) : String :=
  "Failed to process file " ++ name ++ ". Please ensure the file is not corrupted and try again."

/-- The file-processing loop of `generateExamSeries`: encodes every file,
converting a read failure into the file error.  The encoded parts are
prepared but never attached to the completion request (observed behavior). -/
def processFiles : List JsFile → Except String (List String)
  | [] => .ok []
  | f :: rest =>
    match f.base64 with
    | .error _ => .error (fileErrorMsg f.name)
    | .ok data =>
      match processFiles rest with
      | .error e => .error e
      | .ok parts => .ok (data :: parts)

/-- One level of the generation loop: request, normalize, parse, coerce or
fall back. -/
def generateOneExam (complete : String → Except String String)
    (parseJson : String → Option Json) (examContentDescription : String)
    (settings : SimulatorSettings) (hasFiles : Bool) (seriesTopic : String)
    (examTime now : Int) (level : Nat) : Except String SimulatorExam :=
  match complete (createExamSeriesPrompt examContentDescription settings hasFiles (level : Int)) with
  | .error e => .error e
  | .ok text =>
    match parseJson (cleanJsonResponseS text) with
    | some examData =>
      match coerceExam seriesTopic settings examTime now level examData with
      | some exam => .ok exam
      | none => .ok (fallbackExam seriesTopic settings now level)
    | none => .ok (fallbackExam seriesTopic settings now level)

/-- The `for (let level = 1; level <= numberOfExams; level++)` loop,
counting down the `k` levels still to generate starting at `level`.
A completion error aborts the whole loop; the inter-request delay has no
observable effect in the model. -/
def generateExamsLoop (complete : String → Except String String)
    (parseJson : String → Option Json) (examContentDescription : String)
    (settings : SimulatorSettings) (hasFiles : Bool) (seriesTopic : String)
    (examTime now : Int) : Nat → Nat → Except String (List SimulatorExam)
  | _, 0 => .ok []
  | level, k + 1 =>
    match generateOneExam complete parseJson examContentDescription settings
        hasFiles seriesTopic examTime now level with
    | .error e => .error e
    | .ok exam =>
      match generateExamsLoop complete parseJson examContentDescription settings
          hasFiles seriesTopic examTime now (level + 1) k with
      | .error e => .error e
      | .ok rest => .ok (exam :: rest)

/-- `ExamSimulatorService.generateExamSeries`.  `complete` is the external
text-completion capability (`getOssResponse`), `parseJson` the platform
`JSON.parse`, `now` the clock. -/
def generateExamSeries (complete : String → Except String String)
    (parseJson : String → Option Json) (seriesTopic examContentDescription : String)
    (files : List JsFile) (settings : SimulatorSettings) (examTime now : Int) :
    Except String ExamSeries :=
  if jsTrim examContentDescription.data = [] ∧ files.length = 0 then
    .error inputErrorMsg
  else
    match processFiles files with
    | .error e => .error e
    | .ok _contentParts =>
      match generateExamsLoop complete parseJson examContentDescription settings
          (files.length > 0) seriesTopic examTime now 1 settings.numberOfExams with
      | .error e => .error e
      | .ok exams =>
        .ok { id := "series_" ++ toString now,
              topic := seriesTopic,
              description :=
                if examContentDescription ≠ "" then examContentDescription
                else "Progressive exam series with " ++ toString settings.numberOfExams
                  ++ " levels of increasing difficulty",
              exams := exams,
              totalExams := (settings.numberOfExams : Int),
              createdAt := now }

/-! ## Learning-path service (`LearningRoadService`) -/

/-- interface `LearningStep` (string-literal unions as `String`). -/
structure LearningStep where
  step : Int
  title : String
  description : String
  estimatedTime : String
  difficulty : String
  prerequisites : Option (List String)
  keyTopics : List String
  practiceExercises : List String
deriving DecidableEq, Repr

/-- interface `LearningPath`. -/
structure LearningPath where
  id : String
  topic : String
  totalEstimatedTime : String
  difficulty : String
  description : String
  steps : List LearningStep
deriving DecidableEq, Repr

/-- `getLanguageNameByCode(code)` from the language service. -/
def getLanguageNameByCode (code : String) : String :=
  if code = "" then "the specified language"
  else
    let l := code.toLower
    if l = "en" then "English" else if l = "es" then "Spanish"
    else if l = "fr" then "French" else if l = "de" then "German"
    else if l = "it" then "Italian" else if l = "pt" then "Portuguese"
    else if l = "ru" then "Russian" else if l = "zh" then "Chinese (Mandarin)"
    else if l = "ja" then "Japanese" else if l = "ko" then "Korean"
    else if l = "ar" then "Arabic" else if l = "hi" then "Hindi"
    else if l = "vi" then "Vietnamese" else if l = "tr" then "Turkish"
    else "the language \"" ++ code ++ "\""

/-- `createLearningPathPrompt(topic, language)` (fixed copy condensed, out of
scope per spec section 1). -/
def createLearningPathPrompt (topic language : String) : String :=
  "You are an expert educational curriculum designer. Create a comprehensive learning path for the topic: \""
    ++ topic
    ++ "\". Generate a structured learning path with 5-8 progressive steps. Your entire response MUST be in "
    ++ language
    ++ ". Return ONLY valid JSON, no additional text or markdown."

/-- `steps.map((step, index) => ({...step, step: index + 1}))`:
renumber from 1-based position, starting at position `i`. -/
def renumberFrom (i : Nat) : List LearningStep → List LearningStep
  | [] => []
  | s :: rest => { s with step := (i : Int) + 1 } :: renumberFrom (i + 1) rest

/-- Typed reading of one parsed learning step (the JS cast validates
nothing; `none` marks the untyped regions no claim exercises). -/
def decodeStepJson (j : Json) : Option LearningStep :=
  match j with
  | .obj fs => do
    let step ←
      match jsonLookup fs "step" with
      | some (.num n) => some n
      | _ => none
    let title ← jsonLookup fs "title" >>= asJsonStr
    let description ← jsonLookup fs "description" >>= asJsonStr
    let estimatedTime ← jsonLookup fs "estimatedTime" >>= asJsonStr
    let difficulty ← jsonLookup fs "difficulty" >>= asJsonStr
    let prerequisites ←
      match jsonLookup fs "prerequisites" with
      | none => some none
      | some (.arr xs) => (optionMapM asJsonStr xs).map some
      | some _ => none
    let keyTopics ←
      match jsonLookup fs "keyTopics" with
      | some (.arr xs) => optionMapM asJsonStr xs
      | _ => none
    let practiceExercises ←
      match jsonLookup fs "practiceExercises" with
      | some (.arr xs) => optionMapM asJsonStr xs
      | _ => none
    pure { step := step, title := title, description := description,
           estimatedTime := estimatedTime, difficulty := difficulty,
           prerequisites := prerequisites, keyTopics := keyTopics,
           practiceExercises := practiceExercises }
  | _ => none

/-- Typed reading of `JSON.parse(cleanedText) as LearningPath`. -/
def decodeLearningPathJson (j : Json) : Option LearningPath :=
  match j with
  | .obj fs => do
    let id ←
      match jsonLookup fs "id" with
      | some (.str s) => some s
      | _ => some ""
    let topic ← jsonLookup fs "topic" >>= asJsonStr
    let totalEstimatedTime ← jsonLookup fs "totalEstimatedTime" >>= asJsonStr
    let difficulty ← jsonLookup fs "difficulty" >>= asJsonStr
    let description ← jsonLookup fs "description" >>= asJsonStr
    let steps ←
      match jsonLookup fs "steps" with
      | some (.arr xs) => optionMapM decodeStepJson xs
      | _ => none
    pure { id := id, topic := topic, totalEstimatedTime := totalEstimatedTime,
           difficulty := difficulty, description := description, steps := steps }
  | _ => none

/-- `createFallbackLearningPath(topic)`. -/
def createFallbackLearningPath (topic : String) (now : Int) : LearningPath :=
  { id := "fallback_" ++ toString now,
    topic := topic,
    totalEstimatedTime := "3 hours",
    difficulty := "Mixed",
    description := "A comprehensive introduction to " ++ topic
      ++ " covering fundamental concepts and practical applications.",
    steps :=
      [{ step := 1,
         title := "Introduction to " ++ topic,
         description := "Learn the fundamental concepts and basic principles of " ++ topic ++ ".",
         estimatedTime := "30 min", difficulty := "Beginner",
         prerequisites := none,
         keyTopics := ["Basic concepts", "Key terminology", "Historical context"],
         practiceExercises := ["Read introductory materials", "Complete vocabulary quiz", "Watch overview video"] },
       { step := 2,
         title := "Core Principles of " ++ topic,
         description := "Understand the main theories and principles that govern " ++ topic ++ ".",
         estimatedTime := "45 min", difficulty := "Intermediate",
         prerequisites := some ["Introduction to " ++ topic],
         keyTopics := ["Main theories", "Core principles", "Key relationships"],
         practiceExercises := ["Solve practice problems", "Create concept map", "Explain principles"] },
       { step := 3,
         title := "Advanced Applications of " ++ topic,
         description := "Explore real-world applications and advanced concepts in " ++ topic ++ ".",
         estimatedTime := "60 min", difficulty := "Advanced",
         prerequisites := some ["Core Principles of " ++ topic],
         keyTopics := ["Real-world applications", "Advanced concepts", "Current research"],
         practiceExercises := ["Case study analysis", "Project work", "Research assignment"] }] }

/-- `LearningRoadService.generateLearningPath(topic, language)`.  A thrown
completion error is re-wrapped by the outer catch; a parse/shape failure
falls back to the deterministic 3-step path; a successful parse is
renumbered 1..K by array position. -/
def generateLearningPath (complete : String → Except String String)
    (parseJson : String → Option Json) (topic language : String) (now : Int) :
    Except String LearningPath :=
  match complete (createLearningPathPrompt topic (getLanguageNameByCode language)) with
  | .error e => .error ("Failed to generate learning path: " ++ e)
  | .ok text =>
    match (parseJson (cleanJsonResponseS text)).bind decodeLearningPathJson with
    | some lp =>
      .ok { lp with id := "path_" ++ toString now, steps := renumberFrom 0 lp.steps }
    | none => .ok (createFallbackLearningPath topic now)

/-! ## Question serialization (`JSON.stringify` / `JSON.parse` of `questionsData`) -/

/-- JSON encoding of one `SimulatorQuestion` (`JSON.stringify` omits
`undefined`-valued optional fields). -/
def encodeQuestion (q : SimulatorQuestion) : Json :=
  Json.obj
    ([("id", Json.str q.id), ("question", Json.str q.question),
      ("type", Json.str q.type)]
      ++ (match q.options with
          | some os => [("options", Json.arr (os.map Json.str))]
          | none => [])
      ++ (match q.correctAnswer with
          | some (StrOrNum.str s) => [("correctAnswer", Json.str s)]
          | some (StrOrNum.num n) => [("correctAnswer", Json.num n)]
          | none => [])
      ++ [("points", Json.num q.points)]
      ++ (match q.explanation with
          | some e => [("explanation", Json.str e)]
          | none => [])
      ++ [("difficulty", Json.str q.difficulty)])

/-- `JSON.stringify(exam.questions)` at the AST level. -/
def encodeQuestions (qs : List SimulatorQuestion) : Json :=
  Json.arr (qs.map encodeQuestion)

/-- Typed reading of one stored question (the JS side is an unchecked cast
after `JSON.parse`). -/
def decodeQuestionJson (j : Json) : Option SimulatorQuestion :=
  match j with
  | .obj fs => do
    let id ← jsonLookup fs "id" >>= asJsonStr
    let question ← jsonLookup fs "question" >>= asJsonStr
    let type ← jsonLookup fs "type" >>= asJsonStr
    let options ←
      match jsonLookup fs "options" with
      | none => some none
      | some (.arr xs) => (optionMapM asJsonStr xs).map some
      | some _ => none
    let correctAnswer ←
      match jsonLookup fs "correctAnswer" with
      | none => some none
      | some (.str s) => some (some (StrOrNum.str s))
      | some (.num n) => some (some (StrOrNum.num n))
      | some _ => none
    let points ←
      match jsonLookup fs "points" with
      | some (.num n) => some n
      | _ => none
    let explanation ←
      match jsonLookup fs "explanation" with
      | none => some none
      | some (.str s) => some (some s)
      | some _ => none
    let difficulty ← jsonLookup fs "difficulty" >>= asJsonStr
    pure { id := id, question := question, type := type, options := options,
           correctAnswer := correctAnswer, points := points,
           explanation := explanation, difficulty := difficulty }
  | _ => none

/-- `JSON.parse(exam.questionsData)` followed by the cast to
`SimulatorQuestion[]`. -/
def decodeQuestions (j : Json) : Option (List SimulatorQuestion) :=
  match j with
  | .arr xs => optionMapM decodeQuestionJson xs
  | _ => none

/-! ## PersistenceStore (`DatabaseService` over Dexie)

Tables are lists of records; `put` is insert-or-replace on the primary key
`id`; Dexie index order beyond the sorts the code requests is abstracted to
list order. -/

/-- interface `StoredExamSeries`. -/
structure StoredExamSeries where
  id : String
  topic : String
  description : String
  totalExams : Int
  settings : SimulatorSettings
  time : Int
  createdAt : Int
  updatedAt : Int
deriving DecidableEq, Repr

/-- interface `StoredExam` (`questionsData` is the serialized questions
payload). -/
structure StoredExam where
  id : String
  seriesId : String
  title : String
  description : String
  instructions : String
  totalPoints : Int
  estimatedTime : Option Int
  difficultyLevel : Int
  difficultyLabel : String
  questionsData : Json
  score : Option Int
  completedAt : Option Int
  timeTaken : Option Int
  createdAt : Int

/-- interface `StoredLearningPath` (`stepsData` is the serialized steps
payload, encoded with `encodeStep` below). -/
structure StoredLearningPath where
  id : String
  topic : String
  description : String
  totalEstimatedTime : String
  difficulty : String
  stepsData : Json
  createdAt : Int

/-- The object stores of `ExamDatabase` touched by the claims
(`practiceExams` is omitted: no claim mentions it). -/
structure ExamDatabase where
  examSeries : List StoredExamSeries
  simulatorExams : List StoredExam
  learningPaths : List StoredLearningPath

def emptyDatabase : ExamDatabase :=
  { examSeries := [], simulatorExams := [], learningPaths := [] }

/-- `table.put(record)`: replace the record with the same primary key, or
append. -/
def putRecord {α : Type} (key : α → String) (table : List α) (r : α) : List α :=
  if table.any (fun x => key x = key r) then
    table.map (fun x => if key x = key r then r else x)
  else table ++ [r]

/-- The stored row written for the series itself by `saveExamSeries`. -/
def storedSeriesRow (examSeries : ExamSeries) (settings : SimulatorSettings)
    (time now : Int) : StoredExamSeries :=
  { id := examSeries.id, topic := examSeries.topic,
    description := examSeries.description, totalExams := examSeries.totalExams,
    settings := settings, time := time, createdAt := examSeries.createdAt,
    updatedAt := now }

/-- The stored row written for one owned exam by `saveExamSeries`
(`score`/`completedAt`/`timeTaken` are explicitly `undefined`). -/
def storedExamRow (seriesId : String) (exam : SimulatorExam) : StoredExam :=
  { id := exam.id, seriesId := seriesId, title := exam.title,
    description := exam.description, instructions := exam.instructions,
    totalPoints := exam.totalPoints, estimatedTime := exam.estimatedTime,
    difficultyLevel := exam.difficultyLevel,
    difficultyLabel := exam.difficultyLabel,
    questionsData := encodeQuestions exam.questions,
    score := none, completedAt := none, timeTaken := none,
    createdAt := exam.createdAt }

/-- `DatabaseService.saveExamSeries`: one transaction writing the series row
and one row per owned exam. -/
def saveExamSeries (db : ExamDatabase) (examSeries : ExamSeries)
    (settings : SimulatorSettings) (time now : Int) : ExamDatabase :=
  { db with
    examSeries :=
      putRecord (fun s => s.id) db.examSeries
        (storedSeriesRow examSeries settings time now),
    simulatorExams :=
      examSeries.exams.foldl
        (fun t exam => putRecord (fun e => e.id) t (storedExamRow examSeries.id exam))
        db.simulatorExams }

/-- `DatabaseService.getAllExamSeries`: all series rows ordered by
`createdAt` descending. -/
def getAllExamSeries (db : ExamDatabase) : List StoredExamSeries :=
  (db.examSeries.mergeSort (fun a b => a.createdAt ≤ b.createdAt)).reverse

/-- The in-memory exam reconstructed from a stored row by `getExamSeries`
(no `score` field is produced by the mapping). -/
def readExamRow (e : StoredExam) : SimulatorExam :=
  { id := e.id, title := e.title, description := e.description,
    instructions := e.instructions,
    questions := (decodeQuestions e.questionsData).getD [],
    totalPoints := e.totalPoints, estimatedTime := e.estimatedTime,
    difficultyLevel := e.difficultyLevel, difficultyLabel := e.difficultyLabel,
    createdAt := e.createdAt, score := none }

/-- `DatabaseService.getExamSeries(seriesId)`: fetch the series row, join the
exam rows with that `seriesId` sorted ascending by `difficultyLevel`, and
re-embed them with their questions parsed back. -/
def getExamSeries (db : ExamDatabase) (seriesId : String) : Option ExamSeries :=
  match db.examSeries.find? (fun s => s.id = seriesId) with
  | none => none
  | some s =>
    let exams :=
      (db.simulatorExams.filter (fun e => e.seriesId = seriesId)).mergeSort
        (fun a b => a.difficultyLevel ≤ b.difficultyLevel)
    some { id := s.id, topic := s.topic, description := s.description,
           exams := exams.map readExamRow, totalExams := s.totalExams,
           createdAt := s.createdAt }

/-- `DatabaseService.deleteExamSeries(seriesId)`: cascade-delete the owned
exam rows and the series row in one transaction. -/
def deleteExamSeries (db : ExamDatabase) (seriesId : String) : ExamDatabase :=
  { db with
    simulatorExams := db.simulatorExams.filter (fun e => ¬ e.seriesId = seriesId),
    examSeries := db.examSeries.filter (fun s => ¬ s.id = seriesId) }

/-- `DatabaseService.updateExamScore(examId, score, timeTaken)`: Dexie
`update` with a change object holding exactly `score`, `completedAt` and
`timeTaken`; any other key of a matching row is untouched, and a missing key
is a no-op. -/
def updateExamScore (db : ExamDatabase) (examId : String) (score timeTaken now : Int) :
    ExamDatabase :=
  { db with
    simulatorExams :=
      db.simulatorExams.map (fun e =>
        if e.id = examId then
          { e with score := some score, completedAt := some now,
                   timeTaken := some timeTaken }
        else e) }

/-! ## Learning-path persistence -/

/-- JSON encoding of one `LearningStep` for `JSON.stringify(learningPath.steps)`. -/
def encodeStep (s : LearningStep) : Json :=
  Json.obj
    ([("step", Json.num s.step), ("title", Json.str s.title),
      ("description", Json.str s.description),
      ("estimatedTime", Json.str s.estimatedTime),
      ("difficulty", Json.str s.difficulty)]
      ++ (match s.prerequisites with
          | some ps => [("prerequisites", Json.arr (ps.map Json.str))]
          | none => [])
      ++ [("keyTopics", Json.arr (s.keyTopics.map Json.str)),
          ("practiceExercises", Json.arr (s.practiceExercises.map Json.str))])

/-- `JSON.stringify(learningPath.steps)` at the AST level. -/
def encodeSteps (steps : List LearningStep) : Json :=
  Json.arr (steps.map encodeStep)

/-- `JSON.parse(path.stepsData)` followed by the cast to `LearningStep[]`. -/
def decodeSteps (j : Json) : Option (List LearningStep) :=
  match j with
  | .arr xs => optionMapM decodeStepJson xs
  | _ => none

/-- `DatabaseService.saveLearningPath`: writes the path row with the step
sequence serialized verbatim (`JSON.stringify(learningPath.steps)`); the
typed `LearningPath` has no `createdAt`, so `learningPath.createdAt ||
new Date().toISOString()` is the current time. -/
def saveLearningPath (db : ExamDatabase) (learningPath : LearningPath) (now : Int) :
    ExamDatabase :=
  { db with
    learningPaths :=
      putRecord (fun p => p.id) db.learningPaths
        { id := learningPath.id, topic := learningPath.topic,
          description := learningPath.description,
          totalEstimatedTime := learningPath.totalEstimatedTime,
          difficulty := learningPath.difficulty,
          stepsData := encodeSteps learningPath.steps,
          createdAt := now } }

/-- `DatabaseService.getLearningPath(pathId)`. -/
def getLearningPath (db : ExamDatabase) (pathId : String) : Option LearningPath :=
  match db.learningPaths.find? (fun p => p.id = pathId) with
  | none => none
  | some p =>
    some { id := p.id, topic := p.topic,
           totalEstimatedTime := p.totalEstimatedTime,
           difficulty := p.difficulty, description := p.description,
           steps := (decodeSteps p.stepsData).getD [] }

/-! ## JSON serialization (the payload side of the normalizer property)

A real printer for `Json`, used to characterize "a valid JSON payload":
the serialized text of an object starts with an opening brace and ends with
a closing brace, and similarly for arrays — the facts `cleanJsonResponse`
relies on. -/

/-- String-body escaping of `JSON.stringify` (quote and backslash; control
characters do not occur in the payloads considered). -/
def escapeJsonChar (c : Char) : List Char :=
  if c = '"' then ['\\', '"']
  else if c = '\\' then ['\\', '\\']
  else [c]

/-- Serialization of a JSON string literal. -/
def stringifyJsonString (s : String) : List Char :=
  '"' :: (s.data.flatMap escapeJsonChar ++ ['"'])

mutual

/-- `JSON.stringify` (without indentation). -/
def stringifyJson : Json → List Char
  | .null => ("null" : String).data
  | .bool true => ("true" : String).data
  | .bool false => ("false" : String).data
  | .num n => (toString n).data
  | .str s => stringifyJsonString s
  | .arr xs => '[' :: (stringifyJsonList xs ++ [']'])
  | .obj fs => openBraceChar :: (stringifyJsonFields fs ++ [closeBraceChar])

/-- Comma-separated serialization of array elements. -/
def stringifyJsonList : List Json → List Char
  | [] => []
  | [x] => stringifyJson x
  | x :: y :: rest => stringifyJson x ++ [','] ++ stringifyJsonList (y :: rest)

/-- Comma-separated serialization of object fields. -/
def stringifyJsonFields : List (String × Json) → List Char
  | [] => []
  | [f] => stringifyJsonString f.1 ++ [':'] ++ stringifyJson f.2
  | f :: g :: rest =>
    stringifyJsonString f.1 ++ [':'] ++ stringifyJson f.2 ++ [',']
      ++ stringifyJsonFields (g :: rest)

end

/-- A JSON payload that is an object or an array. -/
def Json.isContainer : Json → Prop
  | .arr _ => True
  | .obj _ => True
  | _ => False

/-! ## The wrapping forms of the normalizer property -/

/-- How a payload may be wrapped in a model response: bare, or inside a
single pair of triple-backtick fences, tagged `json` or not. -/
inductive FenceWrap where
  | plain : FenceWrap
  | bare : FenceWrap
  | tagged : FenceWrap
deriving DecidableEq, Repr

/-- The wrapped response text: leading/trailing whitespace `ws1`/`ws4`
around the (optional) fence pair, and whitespace `ws2`/`ws3` between the
fences and the payload. -/
def wrapPayload (f : FenceWrap) (ws1 ws2 ws3 ws4 p : List Char) : List Char :=
  match f with
  | .plain => ws1 ++ p ++ ws4
  | .bare => ws1 ++ fenceChars ++ ws2 ++ p ++ ws3 ++ fenceChars ++ ws4
  | .tagged => ws1 ++ fenceJsonChars ++ ws2 ++ p ++ ws3 ++ fenceChars ++ ws4

/-! ## Concrete instances used by witnesses and the counterexample -/

/-- Settings used by the C5 witness scenario. -/
def c5Settings : SimulatorSettings := ⟨3, none, some 30⟩

/-- The level-2 prompt of the C5 witness scenario. -/
def c5Prompt2 : String :=
  createExamSeriesPrompt "covers sets" c5Settings false ((2 : Nat) : Int)

/-- A well-formed response text for the C5 witness scenario. -/
def c5GoodText : String := "\x7b\x22questions\x22:[]\x7d"

/-- The C5 witness completion stub: syntactically invalid JSON at level 2,
well-formed JSON elsewhere. -/
def c5Stub (s : String) : Except String String :=
  if s = c5Prompt2 then .ok "not json" else .ok c5GoodText

/-- The C5 witness parser double: parses exactly the well-formed response. -/
def c5Parse (s : String) : Option Json :=
  if s = c5GoodText then some (Json.obj [("questions", Json.arr [])]) else none

/-- Projection of a stored exam row onto every field other than the
`score`/`completedAt`/`timeTaken` triple. -/
def examFrame (e : StoredExam) :
    String × String × String × String × String × Int × Option Int × Int
      × String × Json × Int :=
  (e.id, e.seriesId, e.title, e.description, e.instructions, e.totalPoints,
   e.estimatedTime, e.difficultyLevel, e.difficultyLabel, e.questionsData,
   e.createdAt)

/-- A stored exam row used by the C6 and C7 witnesses. -/
def c6Row : StoredExam :=
  { id := "e1", seriesId := "s1", title := "A", description := "d",
    instructions := "i", totalPoints := 100, estimatedTime := some 30,
    difficultyLevel := 2, difficultyLabel := "Beginner",
    questionsData := Json.arr [], score := none, completedAt := none,
    timeTaken := none, createdAt := 5 }

/-- A database holding one series row and one exam row, used by the C6 and
C7 witnesses. -/
def c6Db : ExamDatabase :=
  { examSeries := [⟨"s1", "T", "D", 1, ⟨1, none, none⟩, 30, 9, 9⟩]
    simulatorExams := [c6Row]
    learningPaths := [] }

/-- A learning step with a given (possibly wrong) sequence number, used by
the C8 counterexample. -/
def c8Step (n : Int) : LearningStep :=
  ⟨n, "t", "d", "5 min", "Beginner", none, [], []⟩

/-- A learning path whose steps carry duplicate out-of-order numbers (7, 7),
used by the C8 counterexample. -/
def c8Path : LearningPath :=
  ⟨"p1", "T", "1h", "Mixed", "D", [c8Step 7, c8Step 7]⟩

/-- A question used by the C1 witness. -/
def c1Question : SimulatorQuestion :=
  ⟨"q1", "Q?", "essay", none, some (StrOrNum.str "ans"), 10, some "e", "Hard"⟩

/-- A two-exam series (levels stored out of order) used by the C1 witness. -/
def c1Series : ExamSeries :=
  ⟨"s1", "T", "D",
   [⟨"e1", "A", "da", "i", [c1Question], 100, some 30, 2, "Beginner", 5, none⟩,
    ⟨"e2", "B", "db", "i", [c1Question], 100, some 30, 1, "Foundation", 6, none⟩],
   2, 9⟩

/-! ## Helper lemmas: trimming -/

/-- Every character of a list is JS whitespace. -/
def AllWS (l : List Char) : Prop := ∀ c ∈ l, isJsWhitespace c = true

theorem allWS_reverse {l : List Char} (h : AllWS l) : AllWS l.reverse := by
  intro c hc
  exact h c (List.mem_reverse.mp hc)

theorem dropWhile_ws_append {w s : List Char} (h : AllWS w) :
    (w ++ s).dropWhile isJsWhitespace = s.dropWhile isJsWhitespace := by
  induction w with
  | nil => simp
  | cons a t ih =>
    have ha : isJsWhitespace a = true := h a (by simp)
    have ht : AllWS t := fun c hc => h c (by simp [hc])
    simp [List.dropWhile_cons, ha, ih ht]

theorem dropWhile_cons_of_neg {a : Char} {s : List Char}
    (h : isJsWhitespace a = false) :
    (a :: s).dropWhile isJsWhitespace = a :: s := by
  simp [List.dropWhile_cons, h]

theorem jsTrimLeft_ws_append {w s : List Char} (h : AllWS w) :
    jsTrimLeft (w ++ s) = jsTrimLeft s := dropWhile_ws_append h

theorem jsTrimLeft_cons_of_neg {a : Char} {s : List Char}
    (h : isJsWhitespace a = false) : jsTrimLeft (a :: s) = a :: s :=
  dropWhile_cons_of_neg h

theorem jsTrimRight_append_ws {w s : List Char} (h : AllWS w) :
    jsTrimRight (s ++ w) = jsTrimRight s := by
  unfold jsTrimRight
  rw [List.reverse_append, dropWhile_ws_append (allWS_reverse h)]

theorem jsTrimRight_concat_of_neg {b : Char} {s : List Char}
    (h : isJsWhitespace b = false) : jsTrimRight (s ++ [b]) = s ++ [b] := by
  unfold jsTrimRight
  rw [List.reverse_append]
  simp only [List.reverse_cons, List.reverse_nil, List.nil_append,
    List.singleton_append]
  rw [dropWhile_cons_of_neg h]
  simp

/-- Trimming a payload with non-whitespace first and last characters,
surrounded by whitespace, recovers the payload. -/
theorem jsTrim_sandwich {ws1 ws2 m : List Char} {a b : Char}
    (h1 : AllWS ws1) (h2 : AllWS ws2)
    (ha : isJsWhitespace a = false) (hb : isJsWhitespace b = false) :
    jsTrim (ws1 ++ (a :: (m ++ [b])) ++ ws2) = a :: (m ++ [b]) := by
  unfold jsTrim
  rw [List.append_assoc, jsTrimLeft_ws_append h1]
  have : a :: (m ++ [b]) ++ ws2 = a :: (m ++ [b] ++ ws2) := by simp
  rw [this, jsTrimLeft_cons_of_neg ha]
  have : a :: (m ++ [b] ++ ws2) = (a :: (m ++ [b])) ++ ws2 := by simp
  rw [this, jsTrimRight_append_ws h2]
  have : a :: (m ++ [b]) = (a :: m) ++ [b] := by simp
  rw [this, jsTrimRight_concat_of_neg hb]

/-- Trimming a payload with non-whitespace first and last characters is the
identity. -/
theorem jsTrim_firm {m : List Char} {a b : Char}
    (ha : isJsWhitespace a = false) (hb : isJsWhitespace b = false) :
    jsTrim (a :: (m ++ [b])) = a :: (m ++ [b]) := by
  have := @jsTrim_sandwich [] [] m a b
    (by intro c hc; cases hc) (by intro c hc; cases hc) ha hb
  simpa using this

/-! ## Helper lemmas: substring, startsWith, endsWith, indexOf -/

theorem jsSubstringFrom_eq_drop {s : List Char} {k : Nat} (h : k ≤ s.length) :
    jsSubstringFrom s (k : Int) = s.drop k := by
  unfold jsSubstringFrom jsSubstring
  have h1 : min (max (k : Int) 0) (s.length : Int) = (k : Int) := by omega
  have h2 : min (max (s.length : Int) 0) (s.length : Int) = (s.length : Int) := by
    omega
  simp only [h1, h2]
  have h3 : min (k : Int) (s.length : Int) = (k : Int) := by omega
  have h4 : max (k : Int) (s.length : Int) = (s.length : Int) := by omega
  simp only [h3, h4]
  have h5 : ((s.length : Int) - (k : Int)).toNat = s.length - k := by omega
  have h6 : ((k : Int)).toNat = k := by omega
  rw [h5, h6]
  have : (s.drop k).length = s.length - k := by simp
  rw [← this, List.take_length]

theorem jsSubstring_zero_sub_three {s : List Char} (h : 3 ≤ s.length) :
    jsSubstring s 0 ((s.length : Int) - 3) = s.take (s.length - 3) := by
  unfold jsSubstring
  have h1 : min (max (0 : Int) 0) (s.length : Int) = 0 := by omega
  have h2 : min (max ((s.length : Int) - 3) 0) (s.length : Int)
      = (s.length : Int) - 3 := by omega
  simp only [h1, h2]
  have h3 : min (0 : Int) ((s.length : Int) - 3) = 0 := by omega
  have h4 : max (0 : Int) ((s.length : Int) - 3) = (s.length : Int) - 3 := by omega
  simp only [h3, h4]
  have h5 : ((0 : Int)).toNat = 0 := rfl
  have h6 : ((s.length : Int) - 3 - 0).toNat = s.length - 3 := by omega
  rw [h5, h6, List.drop_zero]

theorem jsSubstring_zero_len {s : List Char} {e : Int} (h : e = (s.length : Int)) :
    jsSubstring s 0 e = s := by
  subst h
  unfold jsSubstring
  have h1 : min (max (0 : Int) 0) (s.length : Int) = 0 := by omega
  have h2 : min (max (s.length : Int) 0) (s.length : Int) = (s.length : Int) := by
    omega
  simp only [h1, h2]
  have h3 : min (0 : Int) ((s.length : Int)) = 0 := by omega
  have h4 : max (0 : Int) ((s.length : Int)) = (s.length : Int) := by omega
  simp only [h3, h4]
  have h5 : ((0 : Int)).toNat = 0 := rfl
  have h6 : ((s.length : Int) - 0).toNat = s.length := by omega
  rw [h5, h6, List.drop_zero, List.take_length]

theorem jsStartsWith_append_self (pre rest : List Char) :
    jsStartsWith (pre ++ rest) pre = true := by
  unfold jsStartsWith
  rw [List.take_append_of_le_length (Nat.le_refl _), List.take_length]
  simp

theorem jsStartsWith_false_of_head {s pre : List Char}
    (h : ∀ c c', s.head? = some c → pre.head? = some c' → c ≠ c')
    (hpre : pre ≠ []) : jsStartsWith s pre = false := by
  unfold jsStartsWith
  cases s with
  | nil =>
    cases pre with
    | nil => exact absurd rfl hpre
    | cons p ps => simp
  | cons a t =>
    cases pre with
    | nil => exact absurd rfl hpre
    | cons p ps =>
      have hne : a ≠ p := h a p rfl rfl
      simp only [List.length_cons, List.take_succ_cons, decide_eq_false_iff_not]
      intro heq
      exact hne (List.head_eq_of_cons_eq heq)

theorem jsEndsWith_append_self (x suf : List Char) :
    jsEndsWith (x ++ suf) suf = true := by
  unfold jsEndsWith
  have hlen : suf.length ≤ (x ++ suf).length := by simp
  have : (x ++ suf).length - suf.length = x.length := by simp
  rw [this, List.drop_left]
  simp

theorem jsEndsWith_false_of_getLast {s suf : List Char}
    (h : ∀ c c', s.getLast? = some c → suf.getLast? = some c' → c ≠ c')
    (hsuf : suf ≠ []) : jsEndsWith s suf = false := by
  unfold jsEndsWith
  by_cases hlen : suf.length ≤ s.length
  · simp only [hlen, decide_True, Bool.true_and, decide_eq_false_iff_not]
    intro heq
    have hsplit : s.getLast?
        = ((s.take (s.length - suf.length)) ++ (s.drop (s.length - suf.length))).getLast? := by
      rw [List.take_append_drop]
    rw [List.getLast?_append, heq] at hsplit
    cases hc : suf.getLast? with
    | none => exact hsuf (List.getLast?_eq_none_iff.mp hc)
    | some c =>
      rw [hc] at hsplit
      simp only [Option.or_some] at hsplit
      exact h c c hsplit hc rfl
  · simp [hlen]

theorem jsIndexOfAux_head_eq (c : Char) (t : List Char) :
    jsIndexOfAux c (c :: t) = 0 := by
  simp [jsIndexOfAux]

theorem jsIndexOfAux_nonneg_or (c : Char) (l : List Char) :
    jsIndexOfAux c l = -1 ∨ 0 ≤ jsIndexOfAux c l := by
  induction l with
  | nil => left; rfl
  | cons a t ih =>
    by_cases h : a = c
    · right; simp [jsIndexOfAux, h]
    · rcases ih with h1 | h1
      · left; simp [jsIndexOfAux, h, h1]
      · by_cases h2 : jsIndexOfAux c t = -1
        · left; simp [jsIndexOfAux, h, h2]
        · right
          simp only [jsIndexOfAux, if_neg h, if_neg h2]
          omega

theorem jsIndexOf_head_eq (c : Char) (t : List Char) :
    jsIndexOf (c :: t) c = 0 := jsIndexOfAux_head_eq c t

theorem jsIndexOf_cons_ne (a c : Char) (t : List Char) (h : a ≠ c) :
    jsIndexOf (a :: t) c = -1 ∨ 1 ≤ jsIndexOf (a :: t) c := by
  unfold jsIndexOf
  rcases jsIndexOfAux_nonneg_or c t with h1 | h1
  · left; simp [jsIndexOfAux, h, h1]
  · by_cases h2 : jsIndexOfAux c t = -1
    · left; simp [jsIndexOfAux, h, h2]
    · right
      simp only [jsIndexOfAux, if_neg h, if_neg h2]
      omega

theorem jsLastIndexOf_concat_eq (s : List Char) (c : Char) :
    jsLastIndexOf (s ++ [c]) c = ((s ++ [c]).length : Int) - 1 := by
  unfold jsLastIndexOf
  rw [List.reverse_append]
  simp only [List.reverse_cons, List.reverse_nil, List.nil_append,
    List.singleton_append]
  rw [jsIndexOfAux_head_eq]
  norm_num

/-- Trimming is the identity on a string with non-whitespace first and last
characters, also under surrounding whitespace. -/
theorem jsTrim_of_firm_ends {s : List Char} {a b : Char}
    (hh : s.head? = some a) (hl : s.getLast? = some b)
    (ha : isJsWhitespace a = false) (hb : isJsWhitespace b = false)
    {w1 w2 : List Char} (h1 : AllWS w1) (h2 : AllWS w2) :
    jsTrim (w1 ++ s ++ w2) = s := by
  obtain ⟨t, rfl⟩ : ∃ t, s = a :: t := by
    cases s with
    | nil => cases hh
    | cons x xs =>
      refine ⟨xs, ?_⟩
      simp only [List.head?_cons, Option.some.injEq] at hh
      rw [hh]
  unfold jsTrim
  rw [List.append_assoc, jsTrimLeft_ws_append h1, List.cons_append,
    jsTrimLeft_cons_of_neg ha, ← List.cons_append, jsTrimRight_append_ws h2]
  have hdec : (a :: t).dropLast ++ [b] = a :: t :=
    List.dropLast_append_getLast? b hl
  rw [← hdec, jsTrimRight_concat_of_neg hb, hdec]

/-- A bare fence followed by text not beginning with the character j is not
recognized as the tagged fence opener. -/
theorem jsStartsWith_fence_not_tagged {rest : List Char}
    (h : ∀ c, rest.head? = some c → c ≠ 'j') :
    jsStartsWith (fenceChars ++ rest) fenceJsonChars = false := by
  cases rest with
  | nil => decide
  | cons r rs =>
    have hr : r ≠ 'j' := h r rfl
    unfold jsStartsWith fenceChars fenceJsonChars
    simp only [List.cons_append, List.nil_append, List.length_cons,
      List.take_succ_cons, List.length_nil, decide_eq_false_iff_not]
    intro heq
    rw [List.cons.injEq, List.cons.injEq, List.cons.injEq, List.cons.injEq] at heq
    exact hr heq.2.2.2.1

/-- `stripFences` on a payload with non-whitespace, non-backtick first and
last characters, wrapped only in whitespace, recovers the payload. -/
theorem stripFences_plain {m w1 w4 : List Char} {a b : Char}
    (h1 : AllWS w1) (h4 : AllWS w4)
    (ha : isJsWhitespace a = false) (hb : isJsWhitespace b = false)
    (hafence : a ≠ '\x60') (hbfence : b ≠ '\x60') :
    stripFences (w1 ++ (a :: (m ++ [b])) ++ w4) = a :: (m ++ [b]) := by
  simp only [stripFences]
  rw [jsTrim_sandwich h1 h4 ha hb]
  have hs1 : jsStartsWith (a :: (m ++ [b])) fenceJsonChars = false := by
    refine jsStartsWith_false_of_head ?_ (by decide)
    intro c c' hc hc'
    simp only [List.head?_cons, Option.some.injEq] at hc
    simp only [fenceJsonChars, List.head?_cons, Option.some.injEq] at hc'
    subst hc
    subst hc'
    exact hafence
  have hs2 : jsStartsWith (a :: (m ++ [b])) fenceChars = false := by
    refine jsStartsWith_false_of_head ?_ (by decide)
    intro c c' hc hc'
    simp only [List.head?_cons, Option.some.injEq] at hc
    simp only [fenceChars, List.head?_cons, Option.some.injEq] at hc'
    subst hc
    subst hc'
    exact hafence
  have he : jsEndsWith (a :: (m ++ [b])) fenceChars = false := by
    refine jsEndsWith_false_of_getLast ?_ (by decide)
    intro c c' hc hc'
    have hlast : (a :: (m ++ [b])).getLast? = some b := by
      rw [← List.cons_append, List.getLast?_concat]
    rw [hlast] at hc
    simp only [Option.some.injEq] at hc
    have hc'2 : c' = '\x60' := by
      simp only [fenceChars] at hc'
      simpa using hc'.symm
    subst hc
    subst hc'2
    exact hbfence
  rw [hs1, hs2]
  simp only [Bool.false_eq_true, if_false]
  rw [he]
  simp only [Bool.false_eq_true, if_false]
  exact jsTrim_firm ha hb

/-- Processing of the trailing fence and final trim, once the leading fence
has been stripped. -/
theorem jsTrim_endStrip {m w2 w3 : List Char} {a b : Char}
    (h2 : AllWS w2) (h3 : AllWS w3)
    (ha : isJsWhitespace a = false) (hb : isJsWhitespace b = false) :
    jsTrim (if jsEndsWith (w2 ++ (a :: (m ++ [b])) ++ w3 ++ fenceChars) fenceChars = true then
        jsSubstring (w2 ++ (a :: (m ++ [b])) ++ w3 ++ fenceChars) 0
          (((w2 ++ (a :: (m ++ [b])) ++ w3 ++ fenceChars).length : Int) - 3)
      else (w2 ++ (a :: (m ++ [b])) ++ w3 ++ fenceChars)) = a :: (m ++ [b]) := by
  have hQ : w2 ++ (a :: (m ++ [b])) ++ w3 ++ fenceChars
      = (w2 ++ (a :: (m ++ [b])) ++ w3) ++ fenceChars := by
    simp only [List.append_assoc]
  rw [hQ]
  rw [jsEndsWith_append_self]
  simp only [if_true]
  have hlen3 : 3 ≤ ((w2 ++ (a :: (m ++ [b])) ++ w3) ++ fenceChars).length := by
    simp [fenceChars]
    omega
  rw [jsSubstring_zero_sub_three hlen3]
  have hlen : ((w2 ++ (a :: (m ++ [b])) ++ w3) ++ fenceChars).length - 3
      = (w2 ++ (a :: (m ++ [b])) ++ w3).length := by
    simp [fenceChars]
    omega
  rw [hlen, List.take_left]
  exact jsTrim_of_firm_ends (by simp) (by rw [← List.cons_append, List.getLast?_concat])
    ha hb h2 h3

/-- `stripFences` recovers a brace/bracket-delimited payload from a
json-tagged fence pair. -/
theorem stripFences_tagged {m w1 w2 w3 w4 : List Char} {a b : Char}
    (h1 : AllWS w1) (h2 : AllWS w2) (h3 : AllWS w3) (h4 : AllWS w4)
    (ha : isJsWhitespace a = false) (hb : isJsWhitespace b = false) :
    stripFences (w1 ++ (fenceJsonChars ++ (w2 ++ (a :: (m ++ [b])) ++ w3 ++ fenceChars)) ++ w4)
      = a :: (m ++ [b]) := by
  simp only [stripFences]
  have hPhead : (fenceJsonChars ++ (w2 ++ (a :: (m ++ [b])) ++ w3 ++ fenceChars)).head?
      = some '\x60' := by
    simp [fenceJsonChars]
  have hPlast : (fenceJsonChars ++ (w2 ++ (a :: (m ++ [b])) ++ w3 ++ fenceChars)).getLast?
      = some '\x60' := by
    rw [List.getLast?_append]
    have : (w2 ++ (a :: (m ++ [b])) ++ w3 ++ fenceChars).getLast? = some '\x60' := by
      rw [List.getLast?_append]
      rfl
    rw [this]
    rfl
  rw [jsTrim_of_firm_ends hPhead hPlast (by decide) (by decide) h1 h4]
  rw [jsStartsWith_append_self]
  simp only [if_true]
  have hlen7 : (7 : Nat) ≤ (fenceJsonChars ++ (w2 ++ (a :: (m ++ [b])) ++ w3 ++ fenceChars)).length := by
    simp [fenceJsonChars]
  have h7 : (7 : Int) = ((7 : Nat) : Int) := by norm_num
  rw [h7, jsSubstringFrom_eq_drop hlen7]
  have hdrop : (fenceJsonChars ++ (w2 ++ (a :: (m ++ [b])) ++ w3 ++ fenceChars)).drop 7
      = w2 ++ (a :: (m ++ [b])) ++ w3 ++ fenceChars := by
    exact List.drop_left fenceJsonChars _
  rw [hdrop]
  exact jsTrim_endStrip h2 h3 ha hb

/-- `stripFences` recovers a brace/bracket-delimited payload from a bare
fence pair. -/
theorem stripFences_bare {m w1 w2 w3 w4 : List Char} {a b : Char}
    (h1 : AllWS w1) (h2 : AllWS w2) (h3 : AllWS w3) (h4 : AllWS w4)
    (ha : isJsWhitespace a = false) (hb : isJsWhitespace b = false)
    (haj : a ≠ 'j') :
    stripFences (w1 ++ (fenceChars ++ (w2 ++ (a :: (m ++ [b])) ++ w3 ++ fenceChars)) ++ w4)
      = a :: (m ++ [b]) := by
  simp only [stripFences]
  have hPhead : (fenceChars ++ (w2 ++ (a :: (m ++ [b])) ++ w3 ++ fenceChars)).head?
      = some '\x60' := by
    simp [fenceChars]
  have hPlast : (fenceChars ++ (w2 ++ (a :: (m ++ [b])) ++ w3 ++ fenceChars)).getLast?
      = some '\x60' := by
    rw [List.getLast?_append]
    have : (w2 ++ (a :: (m ++ [b])) ++ w3 ++ fenceChars).getLast? = some '\x60' := by
      rw [List.getLast?_append]
      rfl
    rw [this]
    rfl
  rw [jsTrim_of_firm_ends hPhead hPlast (by decide) (by decide) h1 h4]
  have hnotTagged : jsStartsWith (fenceChars ++ (w2 ++ (a :: (m ++ [b])) ++ w3 ++ fenceChars))
      fenceJsonChars = false := by
    refine jsStartsWith_fence_not_tagged ?_
    intro c hc
    rw [List.head?_append] at hc
    cases hw2 : w2 with
    | nil =>
      subst hw2
      simp only [List.nil_append, List.head?_append, List.head?_cons] at hc
      have : c = a := by
        cases hc
        rfl
      subst this
      exact haj
    | cons x xs =>
      subst hw2
      simp only [List.cons_append, List.head?_cons, List.head?_append,
        Option.or_some, Option.some.injEq] at hc
      subst hc
      have hx : isJsWhitespace x = true := h2 x (by simp)
      intro hj
      subst hj
      exact absurd hx (by decide)
  rw [hnotTagged]
  simp only [Bool.false_eq_true, if_false]
  rw [jsStartsWith_append_self]
  simp only [if_true]
  have hlen3 : (3 : Nat) ≤ (fenceChars ++ (w2 ++ (a :: (m ++ [b])) ++ w3 ++ fenceChars)).length := by
    simp [fenceChars]
  have h3' : (3 : Int) = ((3 : Nat) : Int) := by norm_num
  rw [h3', jsSubstringFrom_eq_drop hlen3]
  have hdrop : (fenceChars ++ (w2 ++ (a :: (m ++ [b])) ++ w3 ++ fenceChars)).drop 3
      = w2 ++ (a :: (m ++ [b])) ++ w3 ++ fenceChars := by
    exact List.drop_left fenceChars _
  rw [hdrop]
  exact jsTrim_endStrip h2 h3 ha hb

/-- `sliceJsonPayload` is the identity on a payload delimited by an opening
brace/bracket and the matching closer. -/
theorem sliceJsonPayload_delimited {m : List Char} {a b : Char}
    (hab : (a = openBraceChar ∧ b = closeBraceChar) ∨ (a = '[' ∧ b = ']')) :
    sliceJsonPayload (a :: (m ++ [b])) = a :: (m ++ [b]) := by
  have hclose : ∀ c : Char, b = c →
      jsLastIndexOf (a :: (m ++ [b])) c = ((a :: (m ++ [b])).length : Int) - 1 := by
    intro c hc
    subst hc
    have := jsLastIndexOf_concat_eq (a :: m) b
    simpa using this
  have hlen : ((a :: (m ++ [b])).length : Int) = (m.length : Int) + 2 := by
    simp
    omega
  rcases hab with ⟨hA, hB⟩ | ⟨hA, hB⟩
  · -- object payload
    subst hA
    subst hB
    simp only [sliceJsonPayload]
    rw [jsIndexOf_head_eq]
    rw [hclose closeBraceChar rfl]
    have hbr : jsIndexOf (openBraceChar :: (m ++ [closeBraceChar])) '[' = -1
        ∨ 1 ≤ jsIndexOf (openBraceChar :: (m ++ [closeBraceChar])) '[' := by
      exact jsIndexOf_cons_ne _ _ _ (by decide)
    have hcond : (0 : Int) ≠ -1
        ∧ (jsIndexOf (openBraceChar :: (m ++ [closeBraceChar])) '[' = -1
           ∨ (0 : Int) < jsIndexOf (openBraceChar :: (m ++ [closeBraceChar])) '[') := by
      refine ⟨by norm_num, ?_⟩
      rcases hbr with h | h
      · exact Or.inl h
      · exact Or.inr (by omega)
    rw [if_pos hcond]
    have hcond2 : ((0 : Int) ≠ -1
        ∧ ((((openBraceChar :: (m ++ [closeBraceChar])).length : Int) - 1) ≠ -1
        ∧ (((openBraceChar :: (m ++ [closeBraceChar])).length : Int) - 1) > (0 : Int))) := by
      refine ⟨by norm_num, ?_, ?_⟩ <;> rw [hlen] <;> omega
    rw [if_pos hcond2]
    rw [jsSubstring_zero_len (by omega)]
    exact jsTrim_firm (by decide) (by decide)
  · -- array payload
    subst hA
    subst hB
    simp only [sliceJsonPayload]
    rw [jsIndexOf_head_eq]
    rw [hclose ']' rfl]
    have hbr : jsIndexOf ('[' :: (m ++ [']'])) openBraceChar = -1
        ∨ 1 ≤ jsIndexOf ('[' :: (m ++ [']'])) openBraceChar := by
      exact jsIndexOf_cons_ne _ _ _ (by decide)
    have hcond : ¬ (jsIndexOf ('[' :: (m ++ [']'])) openBraceChar ≠ -1
        ∧ ((0 : Int) = -1 ∨ jsIndexOf ('[' :: (m ++ [']'])) openBraceChar < (0 : Int))) := by
      rintro ⟨hne, hor⟩
      rcases hor with h | h
      · norm_num at h
      · rcases hbr with h1 | h1
        · exact hne h1
        · omega
    rw [if_neg hcond]
    rw [if_pos (show (0 : Int) ≠ -1 by norm_num)]
    have hcond2 : ((0 : Int) ≠ -1
        ∧ (((('[' :: (m ++ [']'])).length : Int) - 1) ≠ -1
        ∧ ((('[' :: (m ++ [']'])).length : Int) - 1) > (0 : Int))) := by
      refine ⟨by norm_num, ?_, ?_⟩ <;> rw [hlen] <;> omega
    rw [if_pos hcond2]
    rw [jsSubstring_zero_len (by omega)]
    exact jsTrim_firm (by decide) (by decide)

theorem stringifyJson_obj_shape (fs : List (String × Json)) :
    stringifyJson (Json.obj fs)
      = openBraceChar :: (stringifyJsonFields fs ++ [closeBraceChar]) := by
  rfl

theorem stringifyJson_arr_shape (xs : List Json) :
    stringifyJson (Json.arr xs) = '[' :: (stringifyJsonList xs ++ [']']) := by
  rfl

/-- C9 --- For every valid JSON payload (object or array) wrapped in an
arbitrary combination of leading/trailing whitespace and at most a single
pair of triple-backtick fences (with or without a json tag),
`cleanJsonResponse` returns exactly the serialized payload, so `JSON.parse`
applied to the cleaned text recovers exactly the structure of the original
payload. -/
theorem cleanJsonResponse_recovers_payload (v : Json) (hv : v.isContainer)
    (f : FenceWrap) (ws1 ws2 ws3 ws4 : List Char)
    (h1 : AllWS ws1) (h2 : AllWS ws2) (h3 : AllWS ws3) (h4 : AllWS ws4) :
    cleanJsonResponse (wrapPayload f ws1 ws2 ws3 ws4 (stringifyJson v))
      = stringifyJson v := by
  have hshape : ∃ (m : List Char) (a b : Char),
      stringifyJson v = a :: (m ++ [b])
      ∧ ((a = openBraceChar ∧ b = closeBraceChar) ∨ (a = '[' ∧ b = ']')) := by
    cases v with
    | obj fs =>
      exact ⟨stringifyJsonFields fs, openBraceChar, closeBraceChar,
        stringifyJson_obj_shape fs, Or.inl ⟨rfl, rfl⟩⟩
    | arr xs =>
      exact ⟨stringifyJsonList xs, '[', ']', stringifyJson_arr_shape xs,
        Or.inr ⟨rfl, rfl⟩⟩
    | null => cases hv
    | bool b => cases hv
    | num n => cases hv
    | str s => cases hv
  obtain ⟨m, a, b, hs, hab⟩ := hshape
  have ha : isJsWhitespace a = false := by
    rcases hab with ⟨hA, _⟩ | ⟨hA, _⟩ <;> subst hA <;> decide
  have hb : isJsWhitespace b = false := by
    rcases hab with ⟨_, hB⟩ | ⟨_, hB⟩ <;> subst hB <;> decide
  have hafence : a ≠ '\x60' := by
    rcases hab with ⟨hA, _⟩ | ⟨hA, _⟩ <;> subst hA <;> decide
  have hbfence : b ≠ '\x60' := by
    rcases hab with ⟨_, hB⟩ | ⟨_, hB⟩ <;> subst hB <;> decide
  have haj : a ≠ 'j' := by
    rcases hab with ⟨hA, _⟩ | ⟨hA, _⟩ <;> subst hA <;> decide
  rw [hs]
  unfold cleanJsonResponse
  cases f with
  | plain =>
    have hw : wrapPayload FenceWrap.plain ws1 ws2 ws3 ws4 (a :: (m ++ [b]))
        = ws1 ++ (a :: (m ++ [b])) ++ ws4 := rfl
    rw [hw, stripFences_plain h1 h4 ha hb hafence hbfence]
    exact sliceJsonPayload_delimited hab
  | bare =>
    have hw : wrapPayload FenceWrap.bare ws1 ws2 ws3 ws4 (a :: (m ++ [b]))
        = ws1 ++ (fenceChars ++ (ws2 ++ (a :: (m ++ [b])) ++ ws3 ++ fenceChars)) ++ ws4 := by
      simp [wrapPayload, List.append_assoc]
    rw [hw, stripFences_bare h1 h2 h3 h4 ha hb haj]
    exact sliceJsonPayload_delimited hab
  | tagged =>
    have hw : wrapPayload FenceWrap.tagged ws1 ws2 ws3 ws4 (a :: (m ++ [b]))
        = ws1 ++ (fenceJsonChars ++ (ws2 ++ (a :: (m ++ [b])) ++ ws3 ++ fenceChars)) ++ ws4 := by
      simp [wrapPayload, List.append_assoc]
    rw [hw, stripFences_tagged h1 h2 h3 h4 ha hb]
    exact sliceJsonPayload_delimited hab

/-- Witness for C9: a concrete object payload, json-tagged fences, mixed
whitespace. -/
theorem cleanJsonResponse_recovers_payload_witness :
    (Json.obj [("a", Json.num 1)]).isContainer
    ∧ AllWS [' ', '\n'] ∧ AllWS ['\t'] ∧ AllWS [] ∧ AllWS [' ']
    ∧ cleanJsonResponse
        (wrapPayload FenceWrap.tagged [' ', '\n'] ['\t'] [] [' ']
          (stringifyJson (Json.obj [("a", Json.num 1)])))
      = stringifyJson (Json.obj [("a", Json.num 1)]) := by
  refine ⟨trivial, ?_, ?_, ?_, ?_, ?_⟩
  · intro c hc; fin_cases hc <;> decide
  · intro c hc; fin_cases hc <;> decide
  · intro c hc; cases hc
  · intro c hc; fin_cases hc <;> decide
  · exact cleanJsonResponse_recovers_payload (Json.obj [("a", Json.num 1)]) trivial
      FenceWrap.tagged [' ', '\n'] ['\t'] [] [' ']
      (by intro c hc; fin_cases hc <;> decide)
      (by intro c hc; fin_cases hc <;> decide)
      (by intro c hc; cases hc)
      (by intro c hc; fin_cases hc <;> decide)

/-! ## Helper lemmas: the generation loop -/

/-- Every difficulty label the configuration table can return is one of the
fixed 7-entry vocabulary, and is non-empty. -/
theorem getDifficultyConfig_label_vocab (level : Int) :
    (getDifficultyConfig level).label ∈ difficultyLabelVocab
    ∧ (getDifficultyConfig level).label ≠ "" := by
  unfold getDifficultyConfig
  split
  · decide
  · split
    · decide
    · split
      · decide
      · split
        · decide
        · split
          · decide
          · split
            · decide
            · split
              · decide
              · decide

/-- A successfully coerced exam carries the loop level and the configured
label. -/
theorem coerceExam_fields {seriesTopic : String} {settings : SimulatorSettings}
    {examTime now : Int} {level : Nat} {d : Json} {e : SimulatorExam}
    (h : coerceExam seriesTopic settings examTime now level d = some e) :
    e.difficultyLevel = (level : Int)
    ∧ e.difficultyLabel = (getDifficultyConfig (level : Int)).label := by
  cases d with
  | obj fs =>
    simp only [coerceExam] at h
    split at h
    · simp only [bind, Option.bind_eq_some, Option.some.injEq] at h
      obtain ⟨qs, hqs, t, ht, ds, hds, ins, hins, tp, htp, he⟩ := h
      obtain rfl := Option.some.inj he
      exact ⟨rfl, rfl⟩
    · exact Option.noConfusion h
  | null => simp [coerceExam] at h
  | bool b => simp [coerceExam] at h
  | num n => simp [coerceExam] at h
  | str s => simp [coerceExam] at h
  | arr xs => simp [coerceExam] at h

theorem fallbackExam_fields (seriesTopic : String) (settings : SimulatorSettings)
    (now : Int) (level : Nat) :
    (fallbackExam seriesTopic settings now level).difficultyLevel = (level : Int)
    ∧ (fallbackExam seriesTopic settings now level).difficultyLabel
        = (getDifficultyConfig (level : Int)).label
    ∧ (fallbackExam seriesTopic settings now level).questions.length = 1 :=
  ⟨rfl, rfl, rfl⟩

/-- When the completion succeeds at a level, that level produces an exam
(parsed or fallback) carrying the level and the configured label. -/
theorem generateOneExam_ok {complete : String → Except String String}
    {parseJson : String → Option Json} {desc : String}
    {settings : SimulatorSettings} {hasFiles : Bool} {seriesTopic : String}
    {examTime now : Int} {level : Nat} {t : String}
    (hct : complete (createExamSeriesPrompt desc settings hasFiles (level : Int)) = .ok t) :
    ∃ exam, generateOneExam complete parseJson desc settings hasFiles seriesTopic
        examTime now level = .ok exam
      ∧ exam.difficultyLevel = (level : Int)
      ∧ exam.difficultyLabel = (getDifficultyConfig (level : Int)).label := by
  cases hp : parseJson (cleanJsonResponseS t) with
  | none =>
    refine ⟨fallbackExam seriesTopic settings now level, ?_, rfl, rfl⟩
    simp [generateOneExam, hct, hp]
  | some d =>
    cases hc : coerceExam seriesTopic settings examTime now level d with
    | none =>
      refine ⟨fallbackExam seriesTopic settings now level, ?_, rfl, rfl⟩
      simp [generateOneExam, hct, hp, hc]
    | some ex =>
      obtain ⟨h1, h2⟩ := coerceExam_fields hc
      refine ⟨ex, ?_, h1, h2⟩
      simp [generateOneExam, hct, hp, hc]

/-- When the completion throws at a level, that level aborts with the thrown
error. -/
theorem generateOneExam_error {complete : String → Except String String}
    {parseJson : String → Option Json} {desc : String}
    {settings : SimulatorSettings} {hasFiles : Bool} {seriesTopic : String}
    {examTime now : Int} {level : Nat} {err : String}
    (hct : complete (createExamSeriesPrompt desc settings hasFiles (level : Int)) = .error err) :
    generateOneExam complete parseJson desc settings hasFiles seriesTopic
        examTime now level = .error err := by
  simp [generateOneExam, hct]

/-- The generation loop under a never-throwing completion returns one exam
per level, in level order, each labeled from the configuration table. -/
theorem generateExamsLoop_ok {complete : String → Except String String}
    {parseJson : String → Option Json} {desc : String}
    {settings : SimulatorSettings} {hasFiles : Bool} {seriesTopic : String}
    {examTime now : Int}
    (hok : ∀ s, ∃ t, complete s = .ok t) :
    ∀ (k start : Nat), ∃ exams,
      generateExamsLoop complete parseJson desc settings hasFiles seriesTopic
          examTime now start k = .ok exams
      ∧ exams.map (fun e => (e.difficultyLevel, e.difficultyLabel))
          = (List.range' start k).map
              (fun (n : Nat) => ((n : Int), (getDifficultyConfig (n : Int)).label)) := by
  intro k
  induction k with
  | zero => exact fun start => ⟨[], rfl, rfl⟩
  | succ k ih =>
    intro start
    obtain ⟨t, hct⟩ := hok (createExamSeriesPrompt desc settings hasFiles (start : Int))
    obtain ⟨exam, hexam, hlevel, hlabel⟩ :=
      @generateOneExam_ok complete parseJson desc settings hasFiles seriesTopic
        examTime now start t hct
    obtain ⟨rest, hrest, hmap⟩ := ih (start + 1)
    refine ⟨exam :: rest, ?_, ?_⟩
    · unfold generateExamsLoop
      rw [hexam, hrest]
    · rw [List.range'_succ, List.map_cons, List.map_cons, hmap, hlevel, hlabel]

/-- C2 --- For every N with 1 ≤ N ≤ 7, `generateExamSeries` with
`numberOfExams = N` and a non-throwing text-completion stub returns a series
of exactly N exams whose `(difficultyLevel, difficultyLabel)` sequence is
`(1, label 1), ..., (N, label N)` from the configuration table; in
particular every label is non-empty and drawn from the fixed 7-entry
vocabulary.  (The N = 2 scenario with labels Foundation and Beginner is the
witness.) -/
theorem generateExamSeries_progression
    (complete : String → Except String String) (parseJson : String → Option Json)
    (seriesTopic examContentDescription : String) (settings : SimulatorSettings)
    (examTime now : Int) (N : Nat)
    (hN : settings.numberOfExams = N) (hN1 : 1 ≤ N) (hN7 : N ≤ 7)
    (hdesc : jsTrim examContentDescription.data ≠ [])
    (hok : ∀ s, ∃ t, complete s = .ok t) :
    ∃ series,
      generateExamSeries complete parseJson seriesTopic examContentDescription
          [] settings examTime now = .ok series
      ∧ series.totalExams = (N : Int)
      ∧ series.exams.length = N
      ∧ series.exams.map (fun e => (e.difficultyLevel, e.difficultyLabel))
          = (List.range' 1 N).map
              (fun (n : Nat) => ((n : Int), (getDifficultyConfig (n : Int)).label))
      ∧ ∀ e ∈ series.exams,
          e.difficultyLabel ≠ "" ∧ e.difficultyLabel ∈ difficultyLabelVocab := by
  obtain ⟨exams, hloop, hmap⟩ :=
    @generateExamsLoop_ok complete parseJson examContentDescription settings
      (decide (List.length ([] : List JsFile) > 0)) seriesTopic examTime now hok N 1
  have hresult : generateExamSeries complete parseJson seriesTopic
      examContentDescription [] settings examTime now
      = .ok { id := "series_" ++ toString now,
              topic := seriesTopic,
              description :=
                if examContentDescription ≠ "" then examContentDescription
                else "Progressive exam series with " ++ toString settings.numberOfExams
                  ++ " levels of increasing difficulty",
              exams := exams,
              totalExams := (settings.numberOfExams : Int),
              createdAt := now } := by
    unfold generateExamSeries
    rw [if_neg (by rintro ⟨hd, _⟩; exact hdesc hd)]
    rw [hN]
    simp only [processFiles]
    rw [hloop]
  refine ⟨_, hresult, by simp [hN], ?_, hmap, ?_⟩
  · have := congrArg List.length hmap
    simpa using this
  · intro e he
    have hmem : (e.difficultyLevel, e.difficultyLabel)
        ∈ exams.map (fun e => (e.difficultyLevel, e.difficultyLabel)) :=
      List.mem_map_of_mem _ he
    rw [hmap] at hmem
    obtain ⟨n, hn, hpair⟩ := List.mem_map.mp hmem
    have hlabel : e.difficultyLabel = (getDifficultyConfig (n : Int)).label :=
      (Prod.mk.injEq _ _ _ _ ▸ hpair.symm).2
    obtain ⟨hv, hne⟩ := getDifficultyConfig_label_vocab (n : Int)
    rw [hlabel]
    exact ⟨hne, hv⟩

/-- Witness for C2: the spec's example scenario — topic Algebra Basics,
description covers linear equations, no files, numberOfExams 2; the stub
returns well-formed JSON; the result has totalExams 2 and levels 1 and 2
labeled Foundation and Beginner. -/
theorem generateExamSeries_progression_witness :
    ((⟨2, none, some 30⟩ : SimulatorSettings).numberOfExams = 2
      ∧ 1 ≤ 2 ∧ 2 ≤ 7
      ∧ jsTrim ("covers linear equations" : String).data ≠ []
      ∧ ∀ s : String, ∃ t,
          (fun _ : String =>
            (Except.ok "\x7b\x22title\x22:\x22T1\x22,\x22questions\x22:[]\x7d"
              : Except String String)) s = .ok t)
    ∧ ∃ series,
        generateExamSeries
          (fun _ => .ok "\x7b\x22title\x22:\x22T1\x22,\x22questions\x22:[]\x7d")
          (fun _ => none) "Algebra Basics" "covers linear equations"
          [] ⟨2, none, some 30⟩ 30 1000 = .ok series
        ∧ series.totalExams = ((2 : Nat) : Int)
        ∧ series.exams.length = 2
        ∧ series.exams.map (fun e => (e.difficultyLevel, e.difficultyLabel))
            = (List.range' 1 2).map
                (fun (n : Nat) => ((n : Int), (getDifficultyConfig (n : Int)).label))
        ∧ ∀ e ∈ series.exams,
            e.difficultyLabel ≠ "" ∧ e.difficultyLabel ∈ difficultyLabelVocab := by
  refine ⟨⟨rfl, by norm_num, by norm_num, by decide, fun s => ⟨_, rfl⟩⟩, ?_⟩
  exact generateExamSeries_progression
    (fun _ => .ok "\x7b\x22title\x22:\x22T1\x22,\x22questions\x22:[]\x7d")
    (fun _ => none) "Algebra Basics" "covers linear equations"
    ⟨2, none, some 30⟩ 30 1000 2 rfl (by norm_num) (by norm_num) (by decide)
    (fun s => ⟨_, rfl⟩)

/-- C3 --- When the description is empty or whitespace-only and the
reference-file list is empty, `generateExamSeries` rejects immediately with
the input error, for every completion stub and parser — in particular no
completion request is issued and no series is returned. -/
theorem generateExamSeries_rejects_empty_input
    (seriesTopic examContentDescription : String) (settings : SimulatorSettings)
    (examTime now : Int)
    (hdesc : jsTrim examContentDescription.data = []) :
    ∀ (complete : String → Except String String) (parseJson : String → Option Json),
      generateExamSeries complete parseJson seriesTopic examContentDescription
        [] settings examTime now = .error inputErrorMsg := by
  intro complete parseJson
  unfold generateExamSeries
  rw [if_pos ⟨hdesc, rfl⟩]

/-- Witness for C3: a whitespace-only description and no files. -/
theorem generateExamSeries_rejects_empty_input_witness :
    jsTrim ("  \n " : String).data = []
    ∧ generateExamSeries (fun _ => .error "never called") (fun _ => none)
        "Topic" "  \n " [] ⟨3, none, none⟩ 30 0 = .error inputErrorMsg :=
  ⟨by decide,
   generateExamSeries_rejects_empty_input "Topic" "  \n " ⟨3, none, none⟩ 30 0
     (by decide) (fun _ => .error "never called") (fun _ => none)⟩

/-- C10 --- For every integer level outside 1..7, `getDifficultyConfig`
returns the level-1 Foundation configuration (via `configs[level] ||
configs[1]`), so an exam generated at such a level — parsed or fallback —
carries the label Foundation rather than being rejected. -/
theorem getDifficultyConfig_out_of_range (level : Int)
    (h : level < 1 ∨ 7 < level) :
    getDifficultyConfig level = difficultyConfig1
    ∧ (getDifficultyConfig level).label = "Foundation"
    ∧ (∀ (seriesTopic : String) (settings : SimulatorSettings) (now : Int)
        (lv : Nat), (lv : Int) = level →
        (fallbackExam seriesTopic settings now lv).difficultyLabel = "Foundation")
    ∧ (∀ (seriesTopic : String) (settings : SimulatorSettings)
        (examTime now : Int) (lv : Nat) (d : Json) (e : SimulatorExam),
        (lv : Int) = level →
        coerceExam seriesTopic settings examTime now lv d = some e →
        e.difficultyLabel = "Foundation") := by
  have hconf : getDifficultyConfig level = difficultyConfig1 := by
    unfold getDifficultyConfig
    rcases h with h | h
    · rw [if_neg (by omega), if_neg (by omega), if_neg (by omega),
        if_neg (by omega), if_neg (by omega), if_neg (by omega),
        if_neg (by omega)]
    · rw [if_neg (by omega), if_neg (by omega), if_neg (by omega),
        if_neg (by omega), if_neg (by omega), if_neg (by omega),
        if_neg (by omega)]
  refine ⟨hconf, by rw [hconf]; rfl, ?_, ?_⟩
  · intro seriesTopic settings now lv hlv
    have : (fallbackExam seriesTopic settings now lv).difficultyLabel
        = (getDifficultyConfig (lv : Int)).label := rfl
    rw [this, hlv, hconf]
    rfl
  · intro seriesTopic settings examTime now lv d e hlv hc
    obtain ⟨_, hlabel⟩ := coerceExam_fields hc
    rw [hlabel, hlv, hconf]
    rfl

/-- Witness for C10: level 8 yields the Foundation configuration. -/
theorem getDifficultyConfig_out_of_range_witness :
    ((8 : Int) < 1 ∨ 7 < (8 : Int))
    ∧ getDifficultyConfig 8 = difficultyConfig1
    ∧ (getDifficultyConfig 8).label = "Foundation" := by
  refine ⟨by norm_num, ?_, ?_⟩
  · exact (getDifficultyConfig_out_of_range 8 (by norm_num)).1
  · exact (getDifficultyConfig_out_of_range 8 (by norm_num)).2.1

/-- A completion failure at level `lvl`, with all earlier levels
succeeding, aborts the whole generation loop with that error. -/
theorem generateExamsLoop_error {complete : String → Except String String}
    {parseJson : String → Option Json} {desc : String}
    {settings : SimulatorSettings} {hasFiles : Bool} {seriesTopic : String}
    {examTime now : Int} {err : String} :
    ∀ (k start lvl : Nat), start ≤ lvl → lvl < start + k →
    (∀ l : Nat, start ≤ l → l < lvl →
      ∃ t, complete (createExamSeriesPrompt desc settings hasFiles (l : Int)) = .ok t) →
    complete (createExamSeriesPrompt desc settings hasFiles (lvl : Int)) = .error err →
    generateExamsLoop complete parseJson desc settings hasFiles seriesTopic
      examTime now start k = .error err := by
  intro k
  induction k with
  | zero => intro start lvl hle hlt _ _; omega
  | succ k ih =>
    intro start lvl hle hlt hearlier herr
    by_cases hstart : lvl = start
    · rw [hstart] at herr
      have := @generateOneExam_error complete parseJson desc settings hasFiles
        seriesTopic examTime now start err herr
      unfold generateExamsLoop
      rw [this]
    · obtain ⟨t, ht⟩ := hearlier start (Nat.le_refl _) (by omega)
      obtain ⟨exam, hexam, _, _⟩ :=
        @generateOneExam_ok complete parseJson desc settings hasFiles seriesTopic
          examTime now start t ht
      have hrest := ih (start + 1) lvl (by omega) (by omega)
        (fun l hl1 hl2 => hearlier l (by omega) hl2) herr
      unfold generateExamsLoop
      rw [hexam, hrest]

/-- C4 --- When the text-completion capability throws at any level (earlier
levels succeeding), `generateExamSeries` rejects with exactly that error and
returns no series, not even a partial one. -/
theorem generateExamSeries_aborts_on_throw
    (complete : String → Except String String) (parseJson : String → Option Json)
    (seriesTopic examContentDescription : String) (settings : SimulatorSettings)
    (examTime now : Int) (err : String) (j : Nat)
    (hdesc : jsTrim examContentDescription.data ≠ [])
    (hj1 : 1 ≤ j) (hjN : j ≤ settings.numberOfExams)
    (hearlier : ∀ l : Nat, 1 ≤ l → l < j →
      ∃ t, complete (createExamSeriesPrompt examContentDescription settings
        (decide (List.length ([] : List JsFile) > 0)) (l : Int)) = .ok t)
    (hthrow : complete (createExamSeriesPrompt examContentDescription settings
      (decide (List.length ([] : List JsFile) > 0)) (j : Int)) = .error err) :
    generateExamSeries complete parseJson seriesTopic examContentDescription
      [] settings examTime now = .error err := by
  have hloop := @generateExamsLoop_error complete parseJson
    examContentDescription settings (decide (List.length ([] : List JsFile) > 0))
    seriesTopic examTime now err settings.numberOfExams 1 j hj1 (by omega)
    hearlier hthrow
  unfold generateExamSeries
  rw [if_neg (by rintro ⟨hd, _⟩; exact hdesc hd)]
  simp only [processFiles]
  rw [hloop]

/-- Witness for C4: a stub that throws at level 1 of a 3-exam series; the
thrown message is surfaced unchanged. -/
theorem generateExamSeries_aborts_on_throw_witness :
    jsTrim ("some description" : String).data ≠ []
    ∧ 1 ≤ 1 ∧ 1 ≤ (⟨3, none, none⟩ : SimulatorSettings).numberOfExams
    ∧ generateExamSeries (fun _ => .error "network down") (fun _ => none)
        "Topic" "some description" [] ⟨3, none, none⟩ 30 0
        = .error "network down" := by
  refine ⟨by decide, Nat.le_refl 1, by norm_num, ?_⟩
  exact generateExamSeries_aborts_on_throw (fun _ => .error "network down")
    (fun _ => none) "Topic" "some description" ⟨3, none, none⟩ 30 0
    "network down" 1 (by decide) (Nat.le_refl 1) (by norm_num)
    (fun l hl1 hl2 => absurd (Nat.lt_of_le_of_lt hl1 hl2) (Nat.lt_irrefl 1))
    rfl

/-- C5 --- In a 3-level series where the completion succeeds at every level
but returns text whose normalization does not parse at level 2, the result
still has exactly 3 exams and the level-2 exam is the deterministic
fallback: exactly 1 question, labeled with level 2's configured label.  -/
theorem generateExamSeries_fallback_level2
    (complete : String → Except String String) (parseJson : String → Option Json)
    (seriesTopic examContentDescription : String) (settings : SimulatorSettings)
    (examTime now : Int) (t1 t2 t3 : String)
    (hN : settings.numberOfExams = 3)
    (hdesc : jsTrim examContentDescription.data ≠ [])
    (h1 : complete (createExamSeriesPrompt examContentDescription settings
      (decide (List.length ([] : List JsFile) > 0)) (((1 : Nat)) : Int)) = .ok t1)
    (h2 : complete (createExamSeriesPrompt examContentDescription settings
      (decide (List.length ([] : List JsFile) > 0)) (((2 : Nat)) : Int)) = .ok t2)
    (h3 : complete (createExamSeriesPrompt examContentDescription settings
      (decide (List.length ([] : List JsFile) > 0)) (((3 : Nat)) : Int)) = .ok t3)
    (hp2 : parseJson (cleanJsonResponseS t2) = none) :
    ∃ series ex1 ex3,
      generateExamSeries complete parseJson seriesTopic examContentDescription
        [] settings examTime now = .ok series
      ∧ series.exams
          = [ex1, fallbackExam seriesTopic settings now 2, ex3]
      ∧ series.exams.length = 3
      ∧ (fallbackExam seriesTopic settings now 2).questions.length = 1
      ∧ (fallbackExam seriesTopic settings now 2).difficultyLabel
          = (getDifficultyConfig 2).label := by
  simp only [List.length_nil, gt_iff_lt, Nat.lt_irrefl, decide_False,
    Nat.cast_ofNat, Nat.cast_one] at h1 h2 h3
  obtain ⟨ex1, he1, _, _⟩ :=
    @generateOneExam_ok complete parseJson examContentDescription settings
      false seriesTopic examTime now 1 t1 h1
  obtain ⟨ex3, he3, _, _⟩ :=
    @generateOneExam_ok complete parseJson examContentDescription settings
      false seriesTopic examTime now 3 t3 h3
  have he2 : generateOneExam complete parseJson examContentDescription settings
      false seriesTopic examTime now 2
      = .ok (fallbackExam seriesTopic settings now 2) := by
    simp [generateOneExam, h2, hp2]
  have hloop : generateExamsLoop complete parseJson examContentDescription settings
      false seriesTopic examTime now 1 3
      = .ok [ex1, fallbackExam seriesTopic settings now 2, ex3] := by
    simp [generateExamsLoop, he1, he2, he3]
  have hresult : generateExamSeries complete parseJson seriesTopic
      examContentDescription [] settings examTime now
      = .ok { id := "series_" ++ toString now,
              topic := seriesTopic,
              description :=
                if examContentDescription ≠ "" then examContentDescription
                else "Progressive exam series with " ++ toString settings.numberOfExams
                  ++ " levels of increasing difficulty",
              exams := [ex1, fallbackExam seriesTopic settings now 2, ex3],
              totalExams := (settings.numberOfExams : Int),
              createdAt := now } := by
    unfold generateExamSeries
    rw [if_neg (by rintro ⟨hd, _⟩; exact hdesc hd)]
    rw [hN]
    simp only [processFiles, List.length_nil, gt_iff_lt, Nat.lt_irrefl,
      decide_False]
    rw [hloop]
  exact ⟨_, ex1, ex3, hresult, rfl, rfl, rfl, rfl⟩

set_option maxRecDepth 100000 in
/-- Witness for C5: with the level-2 response unparseable, the 3-exam series
still materializes and its middle exam is the deterministic single-question
fallback labeled Beginner. -/
theorem generateExamSeries_fallback_level2_witness :
    c5Settings.numberOfExams = 3
    ∧ jsTrim ("covers sets" : String).data ≠ []
    ∧ c5Parse (cleanJsonResponseS "not json") = none
    ∧ ∃ series ex1 ex3,
        generateExamSeries c5Stub c5Parse "Topic" "covers sets" [] c5Settings 30 0
          = .ok series
        ∧ series.exams = [ex1, fallbackExam "Topic" c5Settings 0 2, ex3]
        ∧ series.exams.length = 3
        ∧ (fallbackExam "Topic" c5Settings 0 2).questions.length = 1
        ∧ (fallbackExam "Topic" c5Settings 0 2).difficultyLabel
            = (getDifficultyConfig 2).label := by
  refine ⟨rfl, by decide, rfl, ?_⟩
  exact generateExamSeries_fallback_level2 c5Stub c5Parse "Topic" "covers sets"
    c5Settings 30 0 c5GoodText "not json" c5GoodText rfl (by decide)
    rfl rfl rfl rfl

/-- C6 --- `updateExamScore` touches only the score/completedAt/timeTaken
triple of the matching row (every other stored field, in particular
`questionsData`, is unchanged on every row), and a second call (a retake)
leaves exactly the second call's triple: updating twice equals updating once
with the second values. -/
theorem updateExamScore_frame_and_overwrite
    (db : ExamDatabase) (examId : String) (s1 t1 n1 s2 t2 n2 : Int) :
    ((updateExamScore db examId s1 t1 n1).simulatorExams.map examFrame
        = db.simulatorExams.map examFrame)
    ∧ updateExamScore (updateExamScore db examId s1 t1 n1) examId s2 t2 n2
        = updateExamScore db examId s2 t2 n2
    ∧ ∀ e ∈ db.simulatorExams, e.id = examId →
        ({ e with score := some s2, completedAt := some n2, timeTaken := some t2 })
          ∈ (updateExamScore (updateExamScore db examId s1 t1 n1)
              examId s2 t2 n2).simulatorExams := by
  have hsecond : updateExamScore (updateExamScore db examId s1 t1 n1) examId s2 t2 n2
      = updateExamScore db examId s2 t2 n2 := by
    simp only [updateExamScore, List.map_map]
    congr 1
    refine List.map_congr_left ?_
    intro e _
    by_cases h : e.id = examId
    · simp [Function.comp, h]
    · simp [Function.comp, h]
  refine ⟨?_, hsecond, ?_⟩
  · simp only [updateExamScore, List.map_map]
    refine List.map_congr_left ?_
    intro e _
    by_cases h : e.id = examId
    · simp [Function.comp, h, examFrame]
    · simp [Function.comp, h]
  · intro e he hid
    rw [hsecond]
    have : (fun e => if e.id = examId then
        { e with score := some s2, completedAt := some n2, timeTaken := some t2 }
        else e) e
        = { e with score := some s2, completedAt := some n2, timeTaken := some t2 } := by
      simp [hid]
    rw [updateExamScore, ← this]
    exact List.mem_map_of_mem _ he

/-- Witness for C6: retaking exam e1 leaves exactly the second score triple
and the untouched frame. -/
theorem updateExamScore_frame_and_overwrite_witness :
    c6Row ∈ c6Db.simulatorExams
    ∧ c6Row.id = "e1"
    ∧ ((updateExamScore c6Db "e1" 50 100 1).simulatorExams.map examFrame
        = c6Db.simulatorExams.map examFrame)
    ∧ (({ c6Row with score := some 80, completedAt := some 2, timeTaken := some 200 })
        ∈ (updateExamScore (updateExamScore c6Db "e1" 50 100 1)
            "e1" 80 200 2).simulatorExams) := by
  refine ⟨List.mem_singleton.mpr rfl, rfl, ?_, ?_⟩
  · exact (updateExamScore_frame_and_overwrite c6Db "e1" 50 100 1 80 200 2).1
  · exact (updateExamScore_frame_and_overwrite c6Db "e1" 50 100 1 80 200 2).2.2
      c6Row (List.mem_singleton.mpr rfl) rfl

/-- C7 --- After `deleteExamSeries(seriesId)`, the series appears neither in
`getAllExamSeries` nor via `getExamSeries`, and no exam row referencing it
remains in the `simulatorExams` store: the cascade leaves no orphans. -/
theorem deleteExamSeries_cascades (db : ExamDatabase) (seriesId : String) :
    (∀ s ∈ getAllExamSeries (deleteExamSeries db seriesId), s.id ≠ seriesId)
    ∧ (∀ e ∈ (deleteExamSeries db seriesId).simulatorExams, e.seriesId ≠ seriesId)
    ∧ getExamSeries (deleteExamSeries db seriesId) seriesId = none := by
  refine ⟨?_, ?_, ?_⟩
  · intro s hs
    rw [getAllExamSeries, List.mem_reverse] at hs
    have hs2 := (List.mergeSort_perm _ _).mem_iff.mp hs
    simp only [deleteExamSeries, List.mem_filter, decide_not,
      Bool.not_eq_true', decide_eq_false_iff_not] at hs2
    exact hs2.2
  · intro e he
    simp only [deleteExamSeries, List.mem_filter, decide_not,
      Bool.not_eq_true', decide_eq_false_iff_not] at he
    exact he.2
  · have hf : (deleteExamSeries db seriesId).examSeries.find?
        (fun s => s.id = seriesId) = none := by
      apply List.find?_eq_none.mpr
      intro x hx
      simp only [deleteExamSeries, List.mem_filter, decide_not,
        Bool.not_eq_true', decide_eq_false_iff_not] at hx
      simp [hx.2]
    simp [getExamSeries, hf]

/-- Witness for C7: deleting series s1 from the one-series database empties
both stores and makes the series irretrievable. -/
theorem deleteExamSeries_cascades_witness :
    getExamSeries (deleteExamSeries c6Db "s1") "s1" = none
    ∧ (deleteExamSeries c6Db "s1").simulatorExams = []
    ∧ getAllExamSeries (deleteExamSeries c6Db "s1") = [] :=
  ⟨(deleteExamSeries_cascades c6Db "s1").2.2, rfl, by
    simp [getAllExamSeries, deleteExamSeries, c6Db]⟩

/-- Counterexample for C8: `saveLearningPath` stores the step sequence
verbatim — saving a path whose steps are numbered 7, 7 and loading it back
yields step numbers 7, 7, not the positional 1, 2 the claim requires. -/
theorem saveLearningPath_keeps_numbers_counterexample :
    ((getLearningPath (saveLearningPath emptyDatabase c8Path 0) "p1").map
        (fun p => p.steps.map (fun s => s.step))) = some [7, 7]
    ∧ (some [(7 : Int), 7] : Option (List Int)) ≠ some [1, 2] := by
  refine ⟨?_, by decide⟩
  rfl

theorem renumberFrom_length (l : List LearningStep) :
    ∀ i, (renumberFrom i l).length = l.length := by
  induction l with
  | nil => intro i; rfl
  | cons s rest ih =>
    intro i
    simp [renumberFrom, ih]

theorem renumberFrom_map_step (l : List LearningStep) :
    ∀ i, (renumberFrom i l).map (fun s => s.step)
      = (List.range' (i + 1) l.length).map (fun (n : Nat) => (n : Int)) := by
  induction l with
  | nil => intro i; rfl
  | cons s rest ih =>
    intro i
    rw [List.length_cons, List.range'_succ, List.map_cons]
    simp only [renumberFrom, List.map_cons]
    rw [ih (i + 1)]
    congr 1

/-- C8 (amended) --- The 1..K positional renumbering of learning-path steps
is performed by `generateLearningPath` (after a successful parse, and the
fallback path is numbered 1..3 already), not by `saveLearningPath`, which
stores the step sequence verbatim: every path `generateLearningPath`
returns has step numbers equal to 1-based positions. -/
theorem generateLearningPath_renumbers
    (complete : String → Except String String) (parseJson : String → Option Json)
    (topic language : String) (now : Int) (lp : LearningPath)
    (h : generateLearningPath complete parseJson topic language now = .ok lp) :
    lp.steps.map (fun s => s.step)
      = (List.range' 1 lp.steps.length).map (fun (n : Nat) => (n : Int)) := by
  cases hc : complete (createLearningPathPrompt topic (getLanguageNameByCode language)) with
  | error e =>
    simp [generateLearningPath, hc] at h
  | ok text =>
    cases hp : (parseJson (cleanJsonResponseS text)).bind decodeLearningPathJson with
    | some lp' =>
      simp only [generateLearningPath, hc, hp, Except.ok.injEq] at h
      subst h
      simp only [renumberFrom_length]
      exact renumberFrom_map_step lp'.steps 0
    | none =>
      simp only [generateLearningPath, hc, hp, Except.ok.injEq] at h
      subst h
      simp [createFallbackLearningPath, List.range']

/-- Witness for C8 (amended): a stub whose response does not parse yields
the fallback path, whose steps are numbered 1, 2, 3 by position. -/
theorem generateLearningPath_renumbers_witness :
    generateLearningPath (fun _ => .ok "x") (fun _ => none) "T" "en" 0
      = .ok (createFallbackLearningPath "T" 0)
    ∧ (createFallbackLearningPath "T" 0).steps.map (fun s => s.step)
      = (List.range' 1 (createFallbackLearningPath "T" 0).steps.length).map
          (fun (n : Nat) => (n : Int)) := by
  refine ⟨rfl, ?_⟩
  exact generateLearningPath_renumbers (fun _ => .ok "x") (fun _ => none)
    "T" "en" 0 (createFallbackLearningPath "T" 0) rfl

/-! ## Helper lemmas: question serialization roundtrip -/

theorem mapM_asJsonStr_map_str (ss : List String) :
    optionMapM asJsonStr (ss.map Json.str) = some ss := by
  induction ss with
  | nil => rfl
  | cons s rest ih => simp [optionMapM, asJsonStr, ih]

theorem decodeQuestionJson_encodeQuestion (q : SimulatorQuestion) :
    decodeQuestionJson (encodeQuestion q) = some q := by
  rcases q with ⟨id, question, type, options, correctAnswer, points, explanation, difficulty⟩
  cases options with
  | none =>
    cases correctAnswer with
    | none =>
      cases explanation with
      | none =>
        simp [encodeQuestion, decodeQuestionJson, jsonLookup, asJsonStr]
      | some ex =>
        simp [encodeQuestion, decodeQuestionJson, jsonLookup, asJsonStr]
    | some a =>
      cases a with
      | str s =>
        cases explanation with
        | none => simp [encodeQuestion, decodeQuestionJson, jsonLookup, asJsonStr]
        | some ex => simp [encodeQuestion, decodeQuestionJson, jsonLookup, asJsonStr]
      | num n =>
        cases explanation with
        | none => simp [encodeQuestion, decodeQuestionJson, jsonLookup, asJsonStr]
        | some ex => simp [encodeQuestion, decodeQuestionJson, jsonLookup, asJsonStr]
  | some os =>
    cases correctAnswer with
    | none =>
      cases explanation with
      | none =>
        simp [encodeQuestion, decodeQuestionJson, jsonLookup, asJsonStr,
          mapM_asJsonStr_map_str]
      | some ex =>
        simp [encodeQuestion, decodeQuestionJson, jsonLookup, asJsonStr,
          mapM_asJsonStr_map_str]
    | some a =>
      cases a with
      | str s =>
        cases explanation with
        | none =>
          simp [encodeQuestion, decodeQuestionJson, jsonLookup, asJsonStr,
            mapM_asJsonStr_map_str]
        | some ex =>
          simp [encodeQuestion, decodeQuestionJson, jsonLookup, asJsonStr,
            mapM_asJsonStr_map_str]
      | num n =>
        cases explanation with
        | none =>
          simp [encodeQuestion, decodeQuestionJson, jsonLookup, asJsonStr,
            mapM_asJsonStr_map_str]
        | some ex =>
          simp [encodeQuestion, decodeQuestionJson, jsonLookup, asJsonStr,
            mapM_asJsonStr_map_str]

theorem optionMapM_decode_encode (qs : List SimulatorQuestion) :
    optionMapM decodeQuestionJson (qs.map encodeQuestion) = some qs := by
  induction qs with
  | nil => rfl
  | cons q rest ih =>
    simp [optionMapM, decodeQuestionJson_encodeQuestion, ih]

theorem decodeQuestions_encodeQuestions (qs : List SimulatorQuestion) :
    decodeQuestions (encodeQuestions qs) = some qs := by
  simp [decodeQuestions, encodeQuestions, optionMapM_decode_encode]

/-! ## Helper lemmas: the multi-row save -/

theorem putRecord_fresh {α : Type} (key : α → String) (table : List α) (r : α)
    (h : ∀ x ∈ table, key x ≠ key r) :
    putRecord key table r = table ++ [r] := by
  unfold putRecord
  rw [if_neg]
  simp only [List.any_eq_true, not_exists, not_and]
  intro x hx
  simp [h x hx]

theorem foldl_putRecord_fresh {α : Type} (key : α → String) :
    ∀ (rows init : List α), (rows.map key).Nodup →
      (∀ r ∈ rows, ∀ x ∈ init, key x ≠ key r) →
      rows.foldl (fun t r => putRecord key t r) init = init ++ rows := by
  intro rows
  induction rows with
  | nil => intro init _ _; simp
  | cons r rest ih =>
    intro init hnodup hfresh
    rw [List.foldl_cons]
    rw [putRecord_fresh key init r (fun x hx => hfresh r (by simp) x hx)]
    rw [List.map_cons, List.nodup_cons] at hnodup
    rw [ih (init ++ [r]) hnodup.2 ?_]
    · simp
    · intro r' hr' x hx
      rcases List.mem_append.mp hx with hx | hx
      · exact hfresh r' (by simp [hr']) x hx
      · have hxr : x = r := by simpa using hx
        subst hxr
        intro hkey
        exact hnodup.1 (hkey ▸ List.mem_map_of_mem key hr')

/-- C1 --- Saving an `ExamSeries` into a fresh store and loading it back by
id reproduces the same `topic`, `description` and `totalExams`; the loaded
exams sequence is sorted ascending by `difficultyLevel`; and, exam for exam
(matched by id, as a permutation), the question content — serialized to the
store on write and parsed back on read — is identical to what was saved. -/
theorem saveExamSeries_getExamSeries_roundtrip
    (series : ExamSeries) (settings : SimulatorSettings) (time now : Int)
    (hnodup : (series.exams.map (fun e => e.id)).Nodup) :
    ∃ out, getExamSeries (saveExamSeries emptyDatabase series settings time now)
        series.id = some out
      ∧ out.topic = series.topic
      ∧ out.description = series.description
      ∧ out.totalExams = series.totalExams
      ∧ List.Pairwise (fun e1 e2 => e1.difficultyLevel ≤ e2.difficultyLevel) out.exams
      ∧ (out.exams.map (fun e => (e.id, e.questions))).Perm
          (series.exams.map (fun e => (e.id, e.questions))) := by
  have hkeys : ((series.exams.map (storedExamRow series.id)).map
      (fun (e : StoredExam) => e.id)).Nodup := by
    rw [List.map_map]
    exact hnodup
  have hsx : (saveExamSeries emptyDatabase series settings time now).simulatorExams
      = series.exams.map (storedExamRow series.id) := by
    show series.exams.foldl
        (fun t exam => putRecord (fun e => e.id) t (storedExamRow series.id exam)) []
      = series.exams.map (storedExamRow series.id)
    rw [← List.foldl_map (storedExamRow series.id)
      (fun t r => putRecord (fun (e : StoredExam) => e.id) t r)]
    rw [foldl_putRecord_fresh (fun (e : StoredExam) => e.id)
      (series.exams.map (storedExamRow series.id)) [] hkeys
      (fun r _ x hx => absurd hx (List.not_mem_nil x))]
    rfl
  have hse : (saveExamSeries emptyDatabase series settings time now).examSeries
      = [storedSeriesRow series settings time now] := rfl
  have hfind : List.find? (fun s => s.id = series.id)
      [storedSeriesRow series settings time now]
      = some (storedSeriesRow series settings time now) := by
    simp [List.find?, storedSeriesRow]
  have hfilter : (series.exams.map (storedExamRow series.id)).filter
      (fun e => e.seriesId = series.id)
      = series.exams.map (storedExamRow series.id) := by
    refine List.filter_eq_self.mpr ?_
    intro e he
    obtain ⟨x, hx, rfl⟩ := List.mem_map.mp he
    simp [storedExamRow]
  have hget : getExamSeries (saveExamSeries emptyDatabase series settings time now)
      series.id
      = some { id := series.id, topic := series.topic,
               description := series.description,
               exams := ((series.exams.map (storedExamRow series.id)).mergeSort
                   (fun a b => a.difficultyLevel ≤ b.difficultyLevel)).map readExamRow,
               totalExams := series.totalExams, createdAt := series.createdAt } := by
    simp only [getExamSeries, hse, hsx, hfind, hfilter]
    rfl
  have hpairwise : List.Pairwise
      (fun (e1 e2 : SimulatorExam) => e1.difficultyLevel ≤ e2.difficultyLevel)
      (((series.exams.map (storedExamRow series.id)).mergeSort
        (fun a b => a.difficultyLevel ≤ b.difficultyLevel)).map readExamRow) := by
    have hsorted := @List.sorted_mergeSort StoredExam
      (fun a b => decide (a.difficultyLevel ≤ b.difficultyLevel))
      (fun a b c hab hbc => by
        simp only [decide_eq_true_eq] at hab hbc ⊢
        omega)
      (fun a b => by
        simp only [Bool.or_eq_true, decide_eq_true_eq]
        omega)
      (series.exams.map (storedExamRow series.id))
    refine List.pairwise_map.mpr ?_
    refine hsorted.imp ?_
    intro a b hab
    simpa [readExamRow] using hab
  have hpermut : ((((series.exams.map (storedExamRow series.id)).mergeSort
        (fun a b => a.difficultyLevel ≤ b.difficultyLevel)).map readExamRow).map
          (fun e => (e.id, e.questions))).Perm
      (series.exams.map (fun e => (e.id, e.questions))) := by
    rw [List.map_map]
    have hperm := (List.mergeSort_perm (series.exams.map (storedExamRow series.id))
      (fun a b => a.difficultyLevel ≤ b.difficultyLevel)).map
      ((fun (e : SimulatorExam) => (e.id, e.questions)) ∘ readExamRow)
    refine hperm.trans ?_
    rw [List.map_map]
    have heq : series.exams.map
        (((fun (e : SimulatorExam) => (e.id, e.questions)) ∘ readExamRow)
          ∘ storedExamRow series.id)
        = series.exams.map (fun e => (e.id, e.questions)) := by
      refine List.map_congr_left ?_
      intro e _
      simp [Function.comp, readExamRow, storedExamRow,
        decodeQuestions_encodeQuestions]
    rw [heq]
  refine ⟨_, hget, rfl, rfl, rfl, hpairwise, hpermut⟩

/-- Witness for C1: the concrete two-exam series round-trips through the
store. -/
theorem saveExamSeries_getExamSeries_roundtrip_witness :
    (c1Series.exams.map (fun e => e.id)).Nodup
    ∧ ∃ out, getExamSeries (saveExamSeries emptyDatabase c1Series ⟨2, none, none⟩ 30 99)
          c1Series.id = some out
        ∧ out.topic = c1Series.topic
        ∧ out.description = c1Series.description
        ∧ out.totalExams = c1Series.totalExams
        ∧ List.Pairwise (fun e1 e2 => e1.difficultyLevel ≤ e2.difficultyLevel) out.exams
        ∧ (out.exams.map (fun e => (e.id, e.questions))).Perm
            (c1Series.exams.map (fun e => (e.id, e.questions))) :=
  ⟨by decide,
   saveExamSeries_getExamSeries_roundtrip c1Series ⟨2, none, none⟩ 30 99 (by decide)⟩
